import Mathlib

/-!
Verification of the reconciliation engine of bunny-storage-sync.

The definitions below are a shallow embedding of `syncer/syncer.go`
(`BCDNSyncer.Sync` and its helpers).  External effects are modelled by
oracles supplied in a `SyncEnv`:

* `listFn`    models `s.API.List` (the storage listing collaborator);
* `readFn`    models `os.ReadFile` (`none` = read error);
* `sha256hex` models `fmt.Sprintf("%x", sha256.Sum256 content)`;
* `uploadOk`  models whether `s.API.Upload` succeeds for a path;
* `deleteOk`  models whether `s.API.Delete` succeeds for a path;
* `sourceOk`  models whether `os.Stat(sourcePath)` succeeds;
* `localTree` is the sequence of entries visited by `filepath.Walk`;
* `clean`     models `filepath.Clean` (a lexical path normalizer that is
  irrelevant to every claim, hence kept abstract).

Goroutine scheduling in the upload/delete phases only permutes log lines
and the order of the collected per-item errors; all counter updates are
lock-protected increments and commute, so the phases are modelled as left
folds over the operation lists.  Transport calls and file reads are
recorded as an `Event` trace; `Event.upload`/`Event.delete` are emitted
exactly when the Go code invokes the mutating transport call.
-/

namespace BunnySync

/-- The fields of `api.BCDNObject` consumed by the syncer
(`Path`, `ObjectName`, `Length`, `IsDirectory`, `Checksum`); the remaining
JSON bookkeeping fields are never read by `syncer.go` and are omitted. -/
structure BCDNObject where
  path : String
  objectName : String
  length : Nat
  isDirectory : Bool
  checksum : String
deriving DecidableEq, Repr

/-- The remote-state map `map[string]api.BCDNObject`, as an association
list with unique keys (inserts overwrite, as Go map assignment does). -/
abbrev ObjMap : Type := List (String × BCDNObject)

/-- Go `objMap[relPath]` lookup. -/
def lookupKey (m : ObjMap) (k : String) : Option BCDNObject :=
  match m with
  | [] => none
  | (k', v) :: rest => if k' = k then some v else lookupKey rest k

/-- Go `delete(objMap, relPath)`. -/
def eraseKey (m : ObjMap) (k : String) : ObjMap :=
  match m with
  | [] => []
  | (k', v) :: rest => if k' = k then eraseKey rest k else (k', v) :: eraseKey rest k

/-- Go map assignment `objMap[k] = v` (overwrite semantics). -/
def mapInsert (m : ObjMap) (k : String) (v : BCDNObject) : ObjMap :=
  eraseKey m k ++ [(k, v)]

/-- The configuration fields of `BCDNSyncer` (the `API` collaborator
itself lives in `SyncEnv` as oracles). -/
structure BCDNSyncer where
  DryRun : Bool
  SizeOnly : Bool
  OnlyMissing : Bool
  Delete : Bool
  Concurrency : Nat
  Verbose : Bool
deriving DecidableEq, Repr

/-- One `operation` record queued by the walk (syncer.go lines 26-33). -/
structure operation where
  action : String
  path : String
  relPath : String
  checksum : String
  isNew : Bool
deriving DecidableEq, Repr

/-- The `syncMetrics` counter bag (syncer.go lines 35-44). -/
structure syncMetrics where
  total : Nat
  newFile : Nat
  modifiedFile : Nat
  deletedFile : Nat
  skipped : Nat
  errors : Nat
deriving DecidableEq, Repr

def syncMetrics.init : syncMetrics :=
  { total := 0, newFile := 0, modifiedFile := 0, deletedFile := 0, skipped := 0, errors := 0 }

/-- Observable side effects of one run: file reads and the two mutating
transport calls. -/
inductive Event where
  | read (p : String)
  | upload (p : String)
  | delete (p : String)
deriving DecidableEq, Repr

/-- One invocation of the `filepath.Walk` callback.  `rel` is
`filepath.ToSlash(filepath.Rel(sourcePath, path))`, precomputed because it
is a lexical function of `path` that cannot fail for paths produced by
`Walk` under `sourcePath`.  `accessErr` models the callback being invoked
with a non-nil `err`. -/
structure LocalEntry where
  accessErr : Bool
  isDir : Bool
  path : String
  rel : String
  size : Nat
deriving DecidableEq, Repr

/-- The oracles standing for the filesystem and the storage transport. -/
structure SyncEnv where
  zoneName : String
  clean : String → String
  listFn : String → Except String (List BCDNObject)
  readFn : String → Option (List Nat)
  sha256hex : List Nat → String
  uploadOk : String → Bool
  deleteOk : String → Bool
  sourceOk : Bool
  localTree : List LocalEntry

/-- Go `getFileContent` (syncer.go lines 441-448): read the file and pair
the content with its hex digest. -/
def getFileContent (env : SyncEnv) (path : String) : Option (List Nat × String) :=
  match env.readFn path with
  | none => none
  | some content => some (content, env.sha256hex content)

/-- Go `strings.EqualFold`, adequate for the ASCII hex digests compared
here (syncer.go line 158). -/
def eqFold (a b : String) : Bool :=
  a.toList.map Char.toLower == b.toList.map Char.toLower

/-- Go `strings.TrimPrefix(s, pat)` (character-level; all inputs here are
ASCII, where byte and character indices agree). -/
def trimPre (s pat : String) : String :=
  if pat.toList.isPrefixOf s.toList then String.mk (s.toList.drop pat.toList.length) else s

/-- Go `strings.Trim(s, "/")` (syncer.go line 60). -/
def trimSlashes (s : String) : String :=
  String.mk (((s.toList.dropWhile (fun c => c == '/')).reverse.dropWhile (fun c => c == '/')).reverse)

/-- Go `strings.HasSuffix(s, "/")`. -/
def endsWithSlash (s : String) : Bool :=
  s.toList.getLast? == some '/'

/-- Path normalization applied to each listed object
(syncer.go lines 387-401): join `Path` and `ObjectName`, strip the zone
name and leading slash, then `filepath.ToSlash(filepath.Clean ...)`
(kept abstract as `env.clean`). -/
def normObjPath (env : SyncEnv) (obj : BCDNObject) : String :=
  let fullPath := if !endsWithSlash obj.path && obj.path != "" then obj.path ++ "/" else obj.path
  let fullPath := fullPath ++ obj.objectName
  let p1 := trimPre fullPath ("/" ++ env.zoneName ++ "/")
  let p2 := trimPre p1 (env.zoneName ++ "/")
  let p3 := trimPre p2 "/"
  env.clean p3

/-- The queue loop of `fetchAllObjects` (syncer.go lines 359-414).  `fuel`
bounds the number of iterations: the Go loop has no termination guard
beyond the `processed` set, so an unboundedly deep remote tree makes it
run forever, modelled as `none`. -/
def fetchLoop (env : SyncEnv) : Nat → List String → List String → ObjMap →
    Option (Except String ObjMap)
  | 0, _, _, _ => none
  | _ + 1, [], _, m => some (Except.ok m)
  | fuel + 1, cur :: rest, processed, m =>
    if processed.contains cur then
      fetchLoop env fuel rest processed m
    else
      match env.listFn cur with
      | Except.error e => some (Except.error ("failed to list " ++ cur ++ ": " ++ e))
      | Except.ok objects =>
        let next := objects.foldl
          (fun (acc : List String × ObjMap) obj =>
            let objPath := normObjPath env obj
            if obj.isDirectory then (acc.1 ++ [objPath], acc.2)
            else (acc.1, mapInsert acc.2 objPath obj))
          (rest, m)
        fetchLoop env fuel next.1 (processed ++ [cur]) next.2

/-- Go `fetchAllObjects(prefix)`: seed the queue with the root and drain
it.  On the first listing error the partial map is discarded and only the
error is returned (all-or-nothing). -/
def fetchAllObjects (env : SyncEnv) (fuel : Nat) (pfx : String) :
    Option (Except String ObjMap) :=
  fetchLoop env fuel [pfx] [] []

/-- The relative path of a walked entry after the `syncPath` prefixing of
syncer.go lines 97-102. -/
def entryRelPath (syncPath : String) (e : LocalEntry) : String :=
  if syncPath != "" then syncPath ++ "/" ++ e.rel else e.rel

/-- State threaded through the `filepath.Walk` callback: the shared
remote map, the metrics bag, the collected operations and the event
trace. -/
structure WalkState where
  objMap : ObjMap
  metrics : syncMetrics
  operations : List operation
  events : List Event
deriving DecidableEq

/-- One invocation of the walk callback (syncer.go lines 77-206).  The
branch structure mirrors the source: access errors count and continue;
directories are skipped; `OnlyMissing` short-circuits; otherwise the file
is classified new / modified / skipped, read errors during the checksum
comparison return before the final `delete(objMap, relPath)`. -/
def walkStep (s : BCDNSyncer) (env : SyncEnv) (syncPath : String)
    (st : WalkState) (e : LocalEntry) : WalkState :=
  if e.accessErr then
    { st with metrics := { st.metrics with errors := st.metrics.errors + 1 } }
  else if e.isDir then
    st
  else
    let relPath := entryRelPath syncPath e
    let m1 := { st.metrics with total := st.metrics.total + 1 }
    match lookupKey st.objMap relPath with
    | some obj =>
      if s.OnlyMissing then
        { st with objMap := eraseKey st.objMap relPath,
                  metrics := { m1 with skipped := m1.skipped + 1 } }
      else if s.SizeOnly then
        if obj.length ≠ e.size then
          { st with objMap := eraseKey st.objMap relPath,
                    metrics := { m1 with modifiedFile := m1.modifiedFile + 1 },
                    operations := st.operations ++
                      [{ action := "upload", path := e.path, relPath := relPath,
                         checksum := "", isNew := false }] }
        else
          { st with objMap := eraseKey st.objMap relPath,
                    metrics := { m1 with skipped := m1.skipped + 1 } }
      else
        match getFileContent env e.path with
        | none =>
          { st with metrics := { m1 with errors := m1.errors + 1 },
                    events := st.events ++ [Event.read e.path] }
        | some (_, fsChecksum) =>
          if eqFold fsChecksum obj.checksum then
            { st with objMap := eraseKey st.objMap relPath,
                      metrics := { m1 with skipped := m1.skipped + 1 },
                      events := st.events ++ [Event.read e.path] }
          else
            { st with objMap := eraseKey st.objMap relPath,
                      metrics := { m1 with modifiedFile := m1.modifiedFile + 1 },
                      operations := st.operations ++
                        [{ action := "upload", path := e.path, relPath := relPath,
                           checksum := fsChecksum, isNew := false }],
                      events := st.events ++ [Event.read e.path] }
    | none =>
      if s.SizeOnly then
        { st with objMap := eraseKey st.objMap relPath,
                  metrics := { m1 with newFile := m1.newFile + 1 },
                  operations := st.operations ++
                    [{ action := "upload", path := e.path, relPath := relPath,
                       checksum := "", isNew := true }] }
      else
        match getFileContent env e.path with
        | none =>
          { st with metrics := { m1 with newFile := m1.newFile + 1, errors := m1.errors + 1 },
                    events := st.events ++ [Event.read e.path] }
        | some (_, fsChecksum) =>
          { st with objMap := eraseKey st.objMap relPath,
                    metrics := { m1 with newFile := m1.newFile + 1 },
                    operations := st.operations ++
                      [{ action := "upload", path := e.path, relPath := relPath,
                         checksum := fsChecksum, isNew := true }],
                    events := st.events ++ [Event.read e.path] }

/-- The whole walk (syncer.go line 77): fold the callback over the walk
sequence starting from the fetched map and zeroed metrics. -/
def walkResult (s : BCDNSyncer) (env : SyncEnv) (syncPath : String) (m0 : ObjMap) : WalkState :=
  env.localTree.foldl (walkStep s env syncPath)
    { objMap := m0, metrics := syncMetrics.init, operations := [], events := [] }

/-- Result of an upload or delete phase: the updated metrics, the emitted
events, and the length of the local `errors` slice. -/
structure PhaseResult where
  metrics : syncMetrics
  events : List Event
  errs : Nat
deriving DecidableEq

/-- Go `uploadFile` (syncer.go lines 416-423): in dry-run mode the
mutating transport call is skipped and nil is returned. -/
def uploadFile (s : BCDNSyncer) (env : SyncEnv) (relPath : String)
    (_content : List Nat) (_checksum : String) : List Event × Bool :=
  if s.DryRun then ([], true)
  else ([Event.upload relPath], env.uploadOk relPath)

/-- Go `deletePath` (syncer.go lines 425-432). -/
def deletePath (s : BCDNSyncer) (env : SyncEnv) (relPath : String) : List Event × Bool :=
  if s.DryRun then ([], true)
  else ([Event.delete relPath], env.deleteOk relPath)

/-- The goroutine body of `processOperationsConcurrently`
(syncer.go lines 276-306): re-read the file content right before upload
(`getFileContent(op.path)`); a read or upload failure increments the
error counter and appends to the errors slice. -/
def uploadUnit (s : BCDNSyncer) (env : SyncEnv) (acc : PhaseResult) (op : operation) :
    PhaseResult :=
  match getFileContent env op.path with
  | none =>
    { metrics := { acc.metrics with errors := acc.metrics.errors + 1 },
      events := acc.events ++ [Event.read op.path],
      errs := acc.errs + 1 }
  | some (content, checksum) =>
    let r := uploadFile s env op.relPath content checksum
    if r.2 then
      { acc with events := acc.events ++ [Event.read op.path] ++ r.1 }
    else
      { metrics := { acc.metrics with errors := acc.metrics.errors + 1 },
        events := acc.events ++ [Event.read op.path] ++ r.1,
        errs := acc.errs + 1 }

/-- Go `processOperationsConcurrently` (syncer.go lines 268-317). -/
def processOperationsConcurrently (s : BCDNSyncer) (env : SyncEnv)
    (operations : List operation) (m0 : syncMetrics) : PhaseResult :=
  operations.foldl (uploadUnit s env) { metrics := m0, events := [], errs := 0 }

/-- The goroutine body of `processDeletesConcurrently`
(syncer.go lines 328-345). -/
def deleteUnit (s : BCDNSyncer) (env : SyncEnv) (acc : PhaseResult) (relPath : String) :
    PhaseResult :=
  let r := deletePath s env relPath
  if r.2 then
    { acc with events := acc.events ++ r.1 }
  else
    { metrics := { acc.metrics with errors := acc.metrics.errors + 1 },
      events := acc.events ++ r.1,
      errs := acc.errs + 1 }

/-- Go `processDeletesConcurrently` (syncer.go lines 320-356). -/
def processDeletesConcurrently (s : BCDNSyncer) (env : SyncEnv)
    (deleteOps : List String) (m0 : syncMetrics) : PhaseResult :=
  deleteOps.foldl (deleteUnit s env) { metrics := m0, events := [], errs := 0 }

/-- The delete-candidate list built from the residual map
(syncer.go lines 221-226): every remaining non-directory entry. -/
def deleteCandidates (m : ObjMap) : List String :=
  (m.filter (fun p => !p.2.isDirectory)).map (fun p => p.1)

/-- The guard of syncer.go line 213 around the upload phase. -/
def uploadPhase (s : BCDNSyncer) (env : SyncEnv) (st : WalkState) : PhaseResult :=
  if st.operations.isEmpty then { metrics := st.metrics, events := [], errs := 0 }
  else processOperationsConcurrently s env st.operations st.metrics

/-- Everything the run leaves behind: the returned error (`none` = Sync
returned nil), the event trace, the final metrics, the collected
operations, the residual map, and whether the summary block was
reached. -/
structure SyncOutcome where
  err : Option String
  events : List Event
  metrics : syncMetrics
  operations : List operation
  residual : ObjMap
  summaryPrinted : Bool
deriving DecidableEq

/-- The body of `Sync` after a successful fetch (syncer.go lines 70-264):
walk, upload phase (early return on upload errors), delete phase guarded
by `len(deleteOps) > 0` and the `Delete` flag (early return on delete
errors), then the summary and the final error-count check. -/
def syncCore (s : BCDNSyncer) (env : SyncEnv) (syncPath : String) (m0 : ObjMap) : SyncOutcome :=
  let st := walkResult s env syncPath m0
  let up := uploadPhase s env st
  if 0 < up.errs then
    { err := some (toString up.errs ++ " upload errors occurred"),
      events := st.events ++ up.events, metrics := up.metrics,
      operations := st.operations, residual := st.objMap, summaryPrinted := false }
  else
    let deleteOps := deleteCandidates st.objMap
    if !deleteOps.isEmpty && s.Delete then
      let m2 := { up.metrics with deletedFile := deleteOps.length }
      let del := processDeletesConcurrently s env deleteOps m2
      if 0 < del.errs then
        { err := some (toString del.errs ++ " delete errors occurred"),
          events := st.events ++ up.events ++ del.events, metrics := del.metrics,
          operations := st.operations, residual := st.objMap, summaryPrinted := false }
      else
        { err := if 0 < del.metrics.errors then
                   some ("sync completed with " ++ toString del.metrics.errors ++ " errors")
                 else none,
          events := st.events ++ up.events ++ del.events, metrics := del.metrics,
          operations := st.operations, residual := st.objMap, summaryPrinted := true }
    else
      { err := if 0 < up.metrics.errors then
                 some ("sync completed with " ++ toString up.metrics.errors ++ " errors")
               else none,
        events := st.events ++ up.events, metrics := up.metrics,
        operations := st.operations, residual := st.objMap, summaryPrinted := true }

/-- Go `Sync(sourcePath, syncPath)` (syncer.go lines 48-265): validate
the source path, normalize `syncPath`, fetch the remote map (aborting on
a fetch error), then run the core.  `none` models a diverging fetch. -/
def Sync (s : BCDNSyncer) (env : SyncEnv) (syncPath0 : String) (fuel : Nat) :
    Option SyncOutcome :=
  if env.sourceOk = false then
    some { err := some "source path error", events := [], metrics := syncMetrics.init,
           operations := [], residual := [], summaryPrinted := false }
  else
    match fetchAllObjects env fuel (trimSlashes syncPath0) with
    | none => none
    | some (Except.error e) =>
      some { err := some ("failed to fetch remote objects: " ++ e), events := [],
             metrics := syncMetrics.init, operations := [], residual := [],
             summaryPrinted := false }
    | some (Except.ok m0) => some (syncCore s env (trimSlashes syncPath0) m0)

/-- An event is a mutating transport call. -/
def mutating : Event → Bool
  | Event.read _ => false
  | Event.upload _ => true
  | Event.delete _ => true

/-- Number of reads of a given local path in a trace. -/
def readCount (evs : List Event) (p : String) : Nat :=
  (evs.filter (fun ev => decide (ev = Event.read p))).length

/-- Number of queued operations whose remote path is `k`. -/
def opsFor (ops : List operation) (k : String) : Nat :=
  (ops.filter (fun o => decide (o.relPath = k))).length

/-- Number of queued operations whose local path is `p`. -/
def opsForPath (ops : List operation) (p : String) : Nat :=
  (ops.filter (fun o => decide (o.path = p))).length

/-- Event trace of an optional outcome. -/
def syncEvents : Option SyncOutcome → List Event
  | none => []
  | some o => o.events

/-- Metrics of an optional outcome. -/
def syncMetricsOf : Option SyncOutcome → syncMetrics
  | none => syncMetrics.init
  | some o => o.metrics

/-- Operations of an optional outcome. -/
def syncOpsOf : Option SyncOutcome → List operation
  | none => []
  | some o => o.operations

/-- Number of failed delete attempts as the code produces them: none in
dry-run mode, otherwise one per candidate the transport rejects. -/
def failedDeletes (s : BCDNSyncer) (env : SyncEnv) (dops : List String) : Nat :=
  if s.DryRun then 0 else (dops.filter (fun q => !env.deleteOk q)).length

/-! ### Concrete example inputs used to exercise the claims -/

/-- A remote file object listed under zone `z`. -/
def objEx (nm ck : String) (len : Nat) : BCDNObject :=
  { path := "/z/", objectName := nm, length := len, isDirectory := false, checksum := ck }

/-- A remote directory placeholder object. -/
def objExDir (nm : String) : BCDNObject :=
  { path := "/z/", objectName := nm, length := 0, isDirectory := true, checksum := "" }

/-- A plain local file entry. -/
def entEx (pa re : String) (sz : Nat) : LocalEntry :=
  { accessErr := false, isDir := false, path := pa, rel := re, size := sz }

/-- Default checksum-mode configuration with remote deletion enabled. -/
def cfgDel : BCDNSyncer :=
  { DryRun := false, SizeOnly := false, OnlyMissing := false, Delete := true,
    Concurrency := 5, Verbose := false }

/-- Default checksum-mode configuration without remote deletion. -/
def cfgPlain : BCDNSyncer :=
  { DryRun := false, SizeOnly := false, OnlyMissing := false, Delete := false,
    Concurrency := 5, Verbose := false }

/-- Checksum-mode configuration with only-missing enabled. -/
def cfgOnlyMissing : BCDNSyncer :=
  { DryRun := false, SizeOnly := false, OnlyMissing := true, Delete := false,
    Concurrency := 5, Verbose := false }

/-- Remote has `a.txt`; the local read of `a.txt` fails. -/
def envReadFail : SyncEnv :=
  { zoneName := "z", clean := id
    listFn := fun q => if q = "" then Except.ok [objEx "a.txt" "aa" 2] else Except.ok []
    readFn := fun _ => none
    sha256hex := fun _ => "aa"
    uploadOk := fun _ => true
    deleteOk := fun _ => true
    sourceOk := true
    localTree := [entEx "/l/a.txt" "a.txt" 2] }

/-- Remote has `a.txt` (matching digest) and `c.txt`; local `a.txt` reads fine. -/
def envMatch : SyncEnv :=
  { zoneName := "z", clean := id
    listFn := fun q =>
      if q = "" then Except.ok [objEx "a.txt" "aa" 2, objEx "c.txt" "cc" 3] else Except.ok []
    readFn := fun _ => some [1, 2]
    sha256hex := fun _ => "aa"
    uploadOk := fun _ => true
    deleteOk := fun _ => true
    sourceOk := true
    localTree := [entEx "/l/a.txt" "a.txt" 2] }

/-- Remote has a stale `a.txt` and an orphan `c.txt`; local `a.txt` reads fine
but hashes differently, so it is classified modified. -/
def envModified : SyncEnv :=
  { zoneName := "z", clean := id
    listFn := fun q =>
      if q = "" then Except.ok [objEx "a.txt" "zz" 2, objEx "c.txt" "cc" 3] else Except.ok []
    readFn := fun _ => some [1, 2]
    sha256hex := fun _ => "aa"
    uploadOk := fun _ => true
    deleteOk := fun _ => true
    sourceOk := true
    localTree := [entEx "/l/a.txt" "a.txt" 2] }

/-- Remote has `a.txt` (matching digest); local tree has `a.txt` and a new `b.txt`. -/
def envTwoFiles : SyncEnv :=
  { zoneName := "z", clean := id
    listFn := fun q => if q = "" then Except.ok [objEx "a.txt" "aa" 2] else Except.ok []
    readFn := fun _ => some [1, 2]
    sha256hex := fun _ => "aa"
    uploadOk := fun _ => true
    deleteOk := fun _ => true
    sourceOk := true
    localTree := [entEx "/l/a.txt" "a.txt" 2, entEx "/l/b.txt" "b.txt" 2] }

/-- Empty remote zone; local `a.txt` cannot be read. -/
def envNewReadFail : SyncEnv :=
  { zoneName := "z", clean := id
    listFn := fun _ => Except.ok []
    readFn := fun _ => none
    sha256hex := fun _ => "aa"
    uploadOk := fun _ => true
    deleteOk := fun _ => true
    sourceOk := true
    localTree := [entEx "/l/a.txt" "a.txt" 2] }

/-- Empty remote zone; local `a.txt` reads fine (a plain new file). -/
def envNewFile : SyncEnv :=
  { zoneName := "z", clean := id
    listFn := fun _ => Except.ok []
    readFn := fun _ => some [1, 2]
    sha256hex := fun _ => "aa"
    uploadOk := fun _ => true
    deleteOk := fun _ => true
    sourceOk := true
    localTree := [entEx "/l/a.txt" "a.txt" 2] }

/-- Every listing call fails. -/
def envListFail : SyncEnv :=
  { zoneName := "z", clean := id
    listFn := fun _ => Except.error "boom"
    readFn := fun _ => some [1, 2]
    sha256hex := fun _ => "aa"
    uploadOk := fun _ => true
    deleteOk := fun _ => true
    sourceOk := true
    localTree := [entEx "/l/a.txt" "a.txt" 2] }

/-- Remote has an orphan file `c.txt` and a directory placeholder `d`;
the local tree is empty and the delete of `c.txt` fails. -/
def envOrphan : SyncEnv :=
  { zoneName := "z", clean := id
    listFn := fun q =>
      if q = "" then Except.ok [objEx "c.txt" "cc" 3, objExDir "sub"]
      else Except.ok []
    readFn := fun _ => some [1, 2]
    sha256hex := fun _ => "aa"
    uploadOk := fun _ => true
    deleteOk := fun _ => false
    sourceOk := true
    localTree := [] }

end BunnySync

namespace BunnySync

/-! ### Association-list map lemmas -/

theorem lookupKey_eraseKey_self (m : ObjMap) (k : String) :
    lookupKey (eraseKey m k) k = none := by
  induction m with
  | nil => rfl
  | cons hd tl ih =>
    obtain ⟨k', v⟩ := hd
    by_cases h : k' = k <;> simp [eraseKey, lookupKey, h, ih]

theorem lookupKey_eraseKey_ne (m : ObjMap) {j k : String} (h : j ≠ k) :
    lookupKey (eraseKey m j) k = lookupKey m k := by
  induction m with
  | nil => rfl
  | cons hd tl ih =>
    obtain ⟨k', v⟩ := hd
    by_cases h1 : k' = j
    · subst h1
      simp [eraseKey, lookupKey, h, ih]
    · simp only [eraseKey, if_neg h1]
      by_cases h2 : k' = k <;> simp [lookupKey, h2, ih]

theorem lookupKey_eraseKey_none (m : ObjMap) {j k : String}
    (h : lookupKey m k = none) : lookupKey (eraseKey m j) k = none := by
  by_cases hjk : j = k
  · subst hjk; exact lookupKey_eraseKey_self m j
  · rw [lookupKey_eraseKey_ne m hjk]; exact h

theorem mem_eraseKey {m : ObjMap} {j : String} {p : String × BCDNObject}
    (h : p ∈ eraseKey m j) : p ∈ m := by
  induction m with
  | nil => simp [eraseKey] at h
  | cons hd tl ih =>
    obtain ⟨k', v⟩ := hd
    by_cases h1 : k' = j
    · simp [eraseKey, h1] at h
      exact List.mem_cons_of_mem _ (ih h)
    · simp [eraseKey, h1] at h
      rcases h with h | h
      · simp [h]
      · exact List.mem_cons_of_mem _ (ih h)

theorem lookupKey_isSome_of_mem {m : ObjMap} {p : String} {o : BCDNObject}
    (h : (p, o) ∈ m) : lookupKey m p ≠ none := by
  induction m with
  | nil => cases h
  | cons hd tl ih =>
    obtain ⟨k', v⟩ := hd
    rcases List.mem_cons.mp h with h1 | h1
    · have : k' = p := by cases h1; rfl
      simp [lookupKey, this]
    · by_cases h2 : k' = p
      · simp [lookupKey, h2]
      · simpa [lookupKey, h2] using ih h1

theorem mem_deleteCandidates {m : ObjMap} {p : String} :
    p ∈ deleteCandidates m ↔ ∃ o, (p, o) ∈ m ∧ o.isDirectory = false := by
  constructor
  · intro h
    rcases List.mem_map.mp h with ⟨pair, hmem, hfst⟩
    have hdir := List.of_mem_filter hmem
    refine ⟨pair.2, ?_, by simpa using hdir⟩
    have hp : pair = (p, pair.2) := by
      obtain ⟨a, b⟩ := pair
      simp at hfst
      simp [hfst]
    exact hp ▸ List.mem_of_mem_filter hmem
  · rintro ⟨o, hmem, hdir⟩
    refine List.mem_map.mpr ⟨(p, o), ?_, rfl⟩
    exact List.mem_filter.mpr ⟨hmem, by simp [hdir]⟩

end BunnySync

namespace BunnySync

set_option maxRecDepth 4000

/-! ### Branch catalogue for the walk callback

`walkStep_spec` enumerates the eleven control-flow paths of the Go walk
callback together with the exact resulting state; every later lemma about
the walk is derived from it by case analysis. -/

theorem walkStep_spec (s : BCDNSyncer) (env : SyncEnv) (sp : String)
    (st : WalkState) (e : LocalEntry) :
    (e.accessErr = true ∧ walkStep s env sp st e =
      { st with metrics := { st.metrics with errors := st.metrics.errors + 1 } }) ∨
    (e.accessErr = false ∧ e.isDir = true ∧ walkStep s env sp st e = st) ∨
    (∃ obj, e.accessErr = false ∧ e.isDir = false ∧
      lookupKey st.objMap (entryRelPath sp e) = some obj ∧ s.OnlyMissing = true ∧
      walkStep s env sp st e =
        { st with
            objMap := eraseKey st.objMap (entryRelPath sp e)
            metrics := { st.metrics with
                           total := st.metrics.total + 1
                           skipped := st.metrics.skipped + 1 } }) ∨
    (∃ obj, e.accessErr = false ∧ e.isDir = false ∧
      lookupKey st.objMap (entryRelPath sp e) = some obj ∧ s.OnlyMissing = false ∧
      s.SizeOnly = true ∧ obj.length ≠ e.size ∧
      walkStep s env sp st e =
        { st with
            objMap := eraseKey st.objMap (entryRelPath sp e)
            metrics := { st.metrics with
                           total := st.metrics.total + 1
                           modifiedFile := st.metrics.modifiedFile + 1 }
            operations := st.operations ++
              [{ action := "upload", path := e.path, relPath := entryRelPath sp e,
                 checksum := "", isNew := false }] }) ∨
    (∃ obj, e.accessErr = false ∧ e.isDir = false ∧
      lookupKey st.objMap (entryRelPath sp e) = some obj ∧ s.OnlyMissing = false ∧
      s.SizeOnly = true ∧ obj.length = e.size ∧
      walkStep s env sp st e =
        { st with
            objMap := eraseKey st.objMap (entryRelPath sp e)
            metrics := { st.metrics with
                           total := st.metrics.total + 1
                           skipped := st.metrics.skipped + 1 } }) ∨
    (∃ obj, e.accessErr = false ∧ e.isDir = false ∧
      lookupKey st.objMap (entryRelPath sp e) = some obj ∧ s.OnlyMissing = false ∧
      s.SizeOnly = false ∧ getFileContent env e.path = none ∧
      walkStep s env sp st e =
        { st with
            metrics := { st.metrics with
                           total := st.metrics.total + 1
                           errors := st.metrics.errors + 1 }
            events := st.events ++ [Event.read e.path] }) ∨
    (∃ obj c ck, e.accessErr = false ∧ e.isDir = false ∧
      lookupKey st.objMap (entryRelPath sp e) = some obj ∧ s.OnlyMissing = false ∧
      s.SizeOnly = false ∧ getFileContent env e.path = some (c, ck) ∧
      eqFold ck obj.checksum = true ∧
      walkStep s env sp st e =
        { st with
            objMap := eraseKey st.objMap (entryRelPath sp e)
            metrics := { st.metrics with
                           total := st.metrics.total + 1
                           skipped := st.metrics.skipped + 1 }
            events := st.events ++ [Event.read e.path] }) ∨
    (∃ obj c ck, e.accessErr = false ∧ e.isDir = false ∧
      lookupKey st.objMap (entryRelPath sp e) = some obj ∧ s.OnlyMissing = false ∧
      s.SizeOnly = false ∧ getFileContent env e.path = some (c, ck) ∧
      eqFold ck obj.checksum = false ∧
      walkStep s env sp st e =
        { st with
            objMap := eraseKey st.objMap (entryRelPath sp e)
            metrics := { st.metrics with
                           total := st.metrics.total + 1
                           modifiedFile := st.metrics.modifiedFile + 1 }
            operations := st.operations ++
              [{ action := "upload", path := e.path, relPath := entryRelPath sp e,
                 checksum := ck, isNew := false }]
            events := st.events ++ [Event.read e.path] }) ∨
    (e.accessErr = false ∧ e.isDir = false ∧
      lookupKey st.objMap (entryRelPath sp e) = none ∧ s.SizeOnly = true ∧
      walkStep s env sp st e =
        { st with
            objMap := eraseKey st.objMap (entryRelPath sp e)
            metrics := { st.metrics with
                           total := st.metrics.total + 1
                           newFile := st.metrics.newFile + 1 }
            operations := st.operations ++
              [{ action := "upload", path := e.path, relPath := entryRelPath sp e,
                 checksum := "", isNew := true }] }) ∨
    (e.accessErr = false ∧ e.isDir = false ∧
      lookupKey st.objMap (entryRelPath sp e) = none ∧ s.SizeOnly = false ∧
      getFileContent env e.path = none ∧
      walkStep s env sp st e =
        { st with
            metrics := { st.metrics with
                           total := st.metrics.total + 1
                           newFile := st.metrics.newFile + 1
                           errors := st.metrics.errors + 1 }
            events := st.events ++ [Event.read e.path] }) ∨
    (∃ c ck, e.accessErr = false ∧ e.isDir = false ∧
      lookupKey st.objMap (entryRelPath sp e) = none ∧ s.SizeOnly = false ∧
      getFileContent env e.path = some (c, ck) ∧
      walkStep s env sp st e =
        { st with
            objMap := eraseKey st.objMap (entryRelPath sp e)
            metrics := { st.metrics with
                           total := st.metrics.total + 1
                           newFile := st.metrics.newFile + 1 }
            operations := st.operations ++
              [{ action := "upload", path := e.path, relPath := entryRelPath sp e,
                 checksum := ck, isNew := true }]
            events := st.events ++ [Event.read e.path] }) := by
  by_cases ha : e.accessErr = true
  · exact Or.inl ⟨ha, by simp [walkStep, ha]⟩
  · rw [Bool.not_eq_true] at ha
    by_cases hd : e.isDir = true
    · exact Or.inr (Or.inl ⟨ha, hd, by simp [walkStep, ha, hd]⟩)
    · rw [Bool.not_eq_true] at hd
      cases hl : lookupKey st.objMap (entryRelPath sp e) with
      | some obj =>
        by_cases hom : s.OnlyMissing = true
        · refine Or.inr (Or.inr (Or.inl ⟨obj, ha, hd, rfl, hom, ?_⟩))
          simp [walkStep, ha, hd, hl, hom]
        · rw [Bool.not_eq_true] at hom
          by_cases hso : s.SizeOnly = true
          · by_cases hsz : obj.length = e.size
            · refine Or.inr (Or.inr (Or.inr (Or.inr (Or.inl
                ⟨obj, ha, hd, rfl, hom, hso, hsz, ?_⟩))))
              simp [walkStep, ha, hd, hl, hom, hso, hsz]
            · refine Or.inr (Or.inr (Or.inr (Or.inl
                ⟨obj, ha, hd, rfl, hom, hso, hsz, ?_⟩)))
              simp [walkStep, ha, hd, hl, hom, hso, hsz]
          · rw [Bool.not_eq_true] at hso
            cases hg : getFileContent env e.path with
            | none =>
              refine Or.inr (Or.inr (Or.inr (Or.inr (Or.inr (Or.inl
                ⟨obj, ha, hd, rfl, hom, hso, rfl, ?_⟩)))))
              simp [walkStep, ha, hd, hl, hom, hso, hg]
            | some pr =>
              obtain ⟨c, ck⟩ := pr
              by_cases hck : eqFold ck obj.checksum = true
              · refine Or.inr (Or.inr (Or.inr (Or.inr (Or.inr (Or.inr (Or.inl
                  ⟨obj, c, ck, ha, hd, rfl, hom, hso, rfl, hck, ?_⟩))))))
                simp [walkStep, ha, hd, hl, hom, hso, hg, hck]
              · rw [Bool.not_eq_true] at hck
                refine Or.inr (Or.inr (Or.inr (Or.inr (Or.inr (Or.inr (Or.inr (Or.inl
                  ⟨obj, c, ck, ha, hd, rfl, hom, hso, rfl, hck, ?_⟩)))))))
                simp [walkStep, ha, hd, hl, hom, hso, hg, hck]
      | none =>
        by_cases hso : s.SizeOnly = true
        · refine Or.inr (Or.inr (Or.inr (Or.inr (Or.inr (Or.inr (Or.inr (Or.inr (Or.inl
            ⟨ha, hd, rfl, hso, ?_⟩))))))))
          simp [walkStep, ha, hd, hl, hso]
        · rw [Bool.not_eq_true] at hso
          cases hg : getFileContent env e.path with
          | none =>
            refine Or.inr (Or.inr (Or.inr (Or.inr (Or.inr (Or.inr (Or.inr (Or.inr (Or.inr (Or.inl
              ⟨ha, hd, rfl, hso, rfl, ?_⟩)))))))))
            simp [walkStep, ha, hd, hl, hso, hg]
          | some pr =>
            obtain ⟨c, ck⟩ := pr
            refine Or.inr (Or.inr (Or.inr (Or.inr (Or.inr (Or.inr (Or.inr (Or.inr (Or.inr (Or.inr
              ⟨c, ck, ha, hd, rfl, hso, rfl, ?_⟩)))))))))
            simp [walkStep, ha, hd, hl, hso, hg]

end BunnySync

namespace BunnySync

/-! ### Counting helpers -/

theorem opsFor_append (l1 l2 : List operation) (k : String) :
    opsFor (l1 ++ l2) k = opsFor l1 k + opsFor l2 k := by
  simp [opsFor, List.filter_append]

theorem opsForPath_append (l1 l2 : List operation) (p : String) :
    opsForPath (l1 ++ l2) p = opsForPath l1 p + opsForPath l2 p := by
  simp [opsForPath, List.filter_append]

theorem readCount_append (l1 l2 : List Event) (p : String) :
    readCount (l1 ++ l2) p = readCount l1 p + readCount l2 p := by
  simp [readCount, List.filter_append]

/-! ### Derived per-step walk lemmas -/

theorem walkStep_lookup_preserved (s : BCDNSyncer) (env : SyncEnv) (sp : String)
    (st : WalkState) (e : LocalEntry) {k : String}
    (h : entryRelPath sp e ≠ k) :
    lookupKey (walkStep s env sp st e).objMap k = lookupKey st.objMap k := by
  rcases walkStep_spec s env sp st e with
    ⟨_, heq⟩ | ⟨_, _, heq⟩ | ⟨obj, _, _, _, _, heq⟩ | ⟨obj, _, _, _, _, _, _, heq⟩ |
    ⟨obj, _, _, _, _, _, _, heq⟩ | ⟨obj, _, _, _, _, _, _, heq⟩ |
    ⟨obj, c, ck, _, _, _, _, _, _, _, heq⟩ | ⟨obj, c, ck, _, _, _, _, _, _, _, heq⟩ |
    ⟨_, _, _, _, heq⟩ | ⟨_, _, _, _, _, heq⟩ | ⟨c, ck, _, _, _, _, _, heq⟩ <;>
  rw [heq] <;>
  simp [lookupKey_eraseKey_ne _ h]

theorem walkStep_lookup_none (s : BCDNSyncer) (env : SyncEnv) (sp : String)
    (st : WalkState) (e : LocalEntry) {k : String}
    (h : lookupKey st.objMap k = none) :
    lookupKey (walkStep s env sp st e).objMap k = none := by
  rcases walkStep_spec s env sp st e with
    ⟨_, heq⟩ | ⟨_, _, heq⟩ | ⟨obj, _, _, _, _, heq⟩ | ⟨obj, _, _, _, _, _, _, heq⟩ |
    ⟨obj, _, _, _, _, _, _, heq⟩ | ⟨obj, _, _, _, _, _, _, heq⟩ |
    ⟨obj, c, ck, _, _, _, _, _, _, _, heq⟩ | ⟨obj, c, ck, _, _, _, _, _, _, _, heq⟩ |
    ⟨_, _, _, _, heq⟩ | ⟨_, _, _, _, _, heq⟩ | ⟨c, ck, _, _, _, _, _, heq⟩ <;>
  rw [heq] <;>
  simp [h, lookupKey_eraseKey_none _ h]

theorem walkStep_lookup_self_none (s : BCDNSyncer) (env : SyncEnv) (sp : String)
    (st : WalkState) (e : LocalEntry)
    (hacc : e.accessErr = false) (hdir : e.isDir = false)
    (hread : s.SizeOnly = true ∨ getFileContent env e.path ≠ none) :
    lookupKey (walkStep s env sp st e).objMap (entryRelPath sp e) = none := by
  rcases walkStep_spec s env sp st e with
    ⟨h1, heq⟩ | ⟨_, h1, heq⟩ | ⟨obj, _, _, _, _, heq⟩ | ⟨obj, _, _, _, _, _, _, heq⟩ |
    ⟨obj, _, _, _, _, _, _, heq⟩ | ⟨obj, _, _, hl, _, hso, hg, heq⟩ |
    ⟨obj, c, ck, _, _, _, _, _, _, _, heq⟩ | ⟨obj, c, ck, _, _, _, _, _, _, _, heq⟩ |
    ⟨_, _, hl, _, heq⟩ | ⟨_, _, hl, hso, hg, heq⟩ | ⟨c, ck, _, _, hl, _, _, heq⟩
  · rw [h1] at hacc; cases hacc
  · rw [h1] at hdir; cases hdir
  · rw [heq]; exact lookupKey_eraseKey_self _ _
  · rw [heq]; exact lookupKey_eraseKey_self _ _
  · rw [heq]; exact lookupKey_eraseKey_self _ _
  · rcases hread with hread | hread
    · rw [hread] at hso; cases hso
    · exact absurd hg hread
  · rw [heq]; exact lookupKey_eraseKey_self _ _
  · rw [heq]; exact lookupKey_eraseKey_self _ _
  · rw [heq]; exact lookupKey_eraseKey_self _ _
  · rw [heq]; simpa using hl
  · rw [heq]; exact lookupKey_eraseKey_self _ _

theorem walkStep_opsFor_ne (s : BCDNSyncer) (env : SyncEnv) (sp : String)
    (st : WalkState) (e : LocalEntry) {k : String}
    (h : entryRelPath sp e ≠ k) :
    opsFor (walkStep s env sp st e).operations k = opsFor st.operations k := by
  rcases walkStep_spec s env sp st e with
    ⟨_, heq⟩ | ⟨_, _, heq⟩ | ⟨obj, _, _, _, _, heq⟩ | ⟨obj, _, _, _, _, _, _, heq⟩ |
    ⟨obj, _, _, _, _, _, _, heq⟩ | ⟨obj, _, _, _, _, _, _, heq⟩ |
    ⟨obj, c, ck, _, _, _, _, _, _, _, heq⟩ | ⟨obj, c, ck, _, _, _, _, _, _, _, heq⟩ |
    ⟨_, _, _, _, heq⟩ | ⟨_, _, _, _, _, heq⟩ | ⟨c, ck, _, _, _, _, _, heq⟩ <;>
  rw [heq] <;>
  simp [opsFor_append, opsFor, h]

end BunnySync

namespace BunnySync

theorem walkStep_opsFor_new (s : BCDNSyncer) (env : SyncEnv) (sp : String)
    (st : WalkState) (e : LocalEntry) {k : String}
    (hacc : e.accessErr = false) (hdir : e.isDir = false)
    (hk : entryRelPath sp e = k)
    (habs : lookupKey st.objMap k = none)
    (hread : s.SizeOnly = true ∨ getFileContent env e.path ≠ none) :
    opsFor (walkStep s env sp st e).operations k = opsFor st.operations k + 1 ∧
    (walkStep s env sp st e).metrics.newFile = st.metrics.newFile + 1 := by
  subst hk
  rcases walkStep_spec s env sp st e with
    ⟨h1, heq⟩ | ⟨_, h1, heq⟩ | ⟨obj, _, _, hl, _, heq⟩ | ⟨obj, _, _, hl, _, _, _, heq⟩ |
    ⟨obj, _, _, hl, _, _, _, heq⟩ | ⟨obj, _, _, hl, _, hso, hg, heq⟩ |
    ⟨obj, c, ck, _, _, hl, _, _, _, _, heq⟩ | ⟨obj, c, ck, _, _, hl, _, _, _, _, heq⟩ |
    ⟨_, _, hl, _, heq⟩ | ⟨_, _, hl, hso, hg, heq⟩ | ⟨c, ck, _, _, hl, _, _, heq⟩
  · rw [h1] at hacc; cases hacc
  · rw [h1] at hdir; cases hdir
  · rw [habs] at hl; cases hl
  · rw [habs] at hl; cases hl
  · rw [habs] at hl; cases hl
  · rw [habs] at hl; cases hl
  · rw [habs] at hl; cases hl
  · rw [habs] at hl; cases hl
  · rw [heq]; constructor
    · simp [opsFor_append, opsFor]
    · simp
  · rcases hread with hread | hread
    · rw [hread] at hso; cases hso
    · exact absurd hg hread
  · rw [heq]; constructor
    · simp [opsFor_append, opsFor]
    · simp

theorem walkStep_only_missing (s : BCDNSyncer) (env : SyncEnv) (sp : String)
    (st : WalkState) (e : LocalEntry) {obj : BCDNObject}
    (hacc : e.accessErr = false) (hdir : e.isDir = false)
    (hom : s.OnlyMissing = true)
    (hl : lookupKey st.objMap (entryRelPath sp e) = some obj) :
    walkStep s env sp st e =
      { st with
          objMap := eraseKey st.objMap (entryRelPath sp e)
          metrics := { st.metrics with
                         total := st.metrics.total + 1
                         skipped := st.metrics.skipped + 1 } } := by
  rcases walkStep_spec s env sp st e with
    ⟨h1, heq⟩ | ⟨_, h1, heq⟩ | ⟨obj2, _, _, hl2, _, heq⟩ | ⟨obj2, _, _, _, h2, _, _, heq⟩ |
    ⟨obj2, _, _, _, h2, _, _, heq⟩ | ⟨obj2, _, _, _, h2, _, _, heq⟩ |
    ⟨obj2, c, ck, _, _, _, h2, _, _, _, heq⟩ | ⟨obj2, c, ck, _, _, _, h2, _, _, _, heq⟩ |
    ⟨_, _, hl2, _, heq⟩ | ⟨_, _, hl2, _, _, heq⟩ | ⟨c, ck, _, _, hl2, _, _, heq⟩
  · rw [h1] at hacc; cases hacc
  · rw [h1] at hdir; cases hdir
  · exact heq
  · rw [hom] at h2; cases h2
  · rw [hom] at h2; cases h2
  · rw [hom] at h2; cases h2
  · rw [hom] at h2; cases h2
  · rw [hom] at h2; cases h2
  · rw [hl] at hl2; cases hl2
  · rw [hl] at hl2; cases hl2
  · rw [hl] at hl2; cases hl2

theorem walkStep_opsForPath_le (s : BCDNSyncer) (env : SyncEnv) (sp : String)
    (st : WalkState) (e : LocalEntry) (p : String) :
    opsForPath (walkStep s env sp st e).operations p ≤
      opsForPath st.operations p + (if e.path = p then 1 else 0) := by
  rcases walkStep_spec s env sp st e with
    ⟨_, heq⟩ | ⟨_, _, heq⟩ | ⟨obj, _, _, _, _, heq⟩ | ⟨obj, _, _, _, _, _, _, heq⟩ |
    ⟨obj, _, _, _, _, _, _, heq⟩ | ⟨obj, _, _, _, _, _, _, heq⟩ |
    ⟨obj, c, ck, _, _, _, _, _, _, _, heq⟩ | ⟨obj, c, ck, _, _, _, _, _, _, _, heq⟩ |
    ⟨_, _, _, _, heq⟩ | ⟨_, _, _, _, _, heq⟩ | ⟨c, ck, _, _, _, _, _, heq⟩ <;>
  rw [heq] <;>
  by_cases hp : e.path = p <;>
  simp [opsForPath_append, opsForPath, hp]

theorem walkStep_opsForPath_ne (s : BCDNSyncer) (env : SyncEnv) (sp : String)
    (st : WalkState) (e : LocalEntry) {p : String} (h : e.path ≠ p) :
    opsForPath (walkStep s env sp st e).operations p = opsForPath st.operations p := by
  rcases walkStep_spec s env sp st e with
    ⟨_, heq⟩ | ⟨_, _, heq⟩ | ⟨obj, _, _, _, _, heq⟩ | ⟨obj, _, _, _, _, _, _, heq⟩ |
    ⟨obj, _, _, _, _, _, _, heq⟩ | ⟨obj, _, _, _, _, _, _, heq⟩ |
    ⟨obj, c, ck, _, _, _, _, _, _, _, heq⟩ | ⟨obj, c, ck, _, _, _, _, _, _, _, heq⟩ |
    ⟨_, _, _, _, heq⟩ | ⟨_, _, _, _, _, heq⟩ | ⟨c, ck, _, _, _, _, _, heq⟩ <;>
  rw [heq] <;>
  simp [opsForPath_append, opsForPath, h]

theorem walkStep_readCount_le (s : BCDNSyncer) (env : SyncEnv) (sp : String)
    (st : WalkState) (e : LocalEntry) (p : String) :
    readCount (walkStep s env sp st e).events p ≤
      readCount st.events p + (if e.path = p then 1 else 0) := by
  rcases walkStep_spec s env sp st e with
    ⟨_, heq⟩ | ⟨_, _, heq⟩ | ⟨obj, _, _, _, _, heq⟩ | ⟨obj, _, _, _, _, _, _, heq⟩ |
    ⟨obj, _, _, _, _, _, _, heq⟩ | ⟨obj, _, _, _, _, _, _, heq⟩ |
    ⟨obj, c, ck, _, _, _, _, _, _, _, heq⟩ | ⟨obj, c, ck, _, _, _, _, _, _, _, heq⟩ |
    ⟨_, _, _, _, heq⟩ | ⟨_, _, _, _, _, heq⟩ | ⟨c, ck, _, _, _, _, _, heq⟩ <;>
  rw [heq] <;>
  by_cases hp : e.path = p <;>
  simp [readCount_append, readCount, hp]

theorem walkStep_readCount_ne (s : BCDNSyncer) (env : SyncEnv) (sp : String)
    (st : WalkState) (e : LocalEntry) {p : String} (h : e.path ≠ p) :
    readCount (walkStep s env sp st e).events p = readCount st.events p := by
  rcases walkStep_spec s env sp st e with
    ⟨_, heq⟩ | ⟨_, _, heq⟩ | ⟨obj, _, _, _, _, heq⟩ | ⟨obj, _, _, _, _, _, _, heq⟩ |
    ⟨obj, _, _, _, _, _, _, heq⟩ | ⟨obj, _, _, _, _, _, _, heq⟩ |
    ⟨obj, c, ck, _, _, _, _, _, _, _, heq⟩ | ⟨obj, c, ck, _, _, _, _, _, _, _, heq⟩ |
    ⟨_, _, _, _, heq⟩ | ⟨_, _, _, _, _, heq⟩ | ⟨c, ck, _, _, _, _, _, heq⟩ <;>
  rw [heq] <;>
  simp [readCount_append, readCount, h]

theorem walkStep_no_mutation (s : BCDNSyncer) (env : SyncEnv) (sp : String)
    (st : WalkState) (e : LocalEntry)
    (h : ∀ ev ∈ st.events, mutating ev = false) :
    ∀ ev ∈ (walkStep s env sp st e).events, mutating ev = false := by
  rcases walkStep_spec s env sp st e with
    ⟨_, heq⟩ | ⟨_, _, heq⟩ | ⟨obj, _, _, _, _, heq⟩ | ⟨obj, _, _, _, _, _, _, heq⟩ |
    ⟨obj, _, _, _, _, _, _, heq⟩ | ⟨obj, _, _, _, _, _, _, heq⟩ |
    ⟨obj, c, ck, _, _, _, _, _, _, _, heq⟩ | ⟨obj, c, ck, _, _, _, _, _, _, _, heq⟩ |
    ⟨_, _, _, _, heq⟩ | ⟨_, _, _, _, _, heq⟩ | ⟨c, ck, _, _, _, _, _, heq⟩ <;>
  all_goals rw [heq]
  all_goals intro ev hev
  all_goals try (exact h ev hev)
  all_goals
    (have hev2 : ev ∈ st.events ∨ ev = Event.read e.path := by simpa using hev
     rcases hev2 with hev2 | hev2
     · exact h ev hev2
     · rw [hev2]; rfl)

theorem walkStep_skipped_le (s : BCDNSyncer) (env : SyncEnv) (sp : String)
    (st : WalkState) (e : LocalEntry) :
    st.metrics.skipped ≤ (walkStep s env sp st e).metrics.skipped ∧
    st.metrics.newFile ≤ (walkStep s env sp st e).metrics.newFile ∧
    (walkStep s env sp st e).metrics.deletedFile = st.metrics.deletedFile := by
  rcases walkStep_spec s env sp st e with
    ⟨_, heq⟩ | ⟨_, _, heq⟩ | ⟨obj, _, _, _, _, heq⟩ | ⟨obj, _, _, _, _, _, _, heq⟩ |
    ⟨obj, _, _, _, _, _, _, heq⟩ | ⟨obj, _, _, _, _, _, _, heq⟩ |
    ⟨obj, c, ck, _, _, _, _, _, _, _, heq⟩ | ⟨obj, c, ck, _, _, _, _, _, _, _, heq⟩ |
    ⟨_, _, _, _, heq⟩ | ⟨_, _, _, _, _, heq⟩ | ⟨c, ck, _, _, _, _, _, heq⟩ <;>
  rw [heq] <;>
  simp

theorem walkStep_sum (s : BCDNSyncer) (env : SyncEnv) (sp : String)
    (st : WalkState) (e : LocalEntry)
    (hgood : e.accessErr = true ∨ e.isDir = true ∨ s.SizeOnly = true ∨
             getFileContent env e.path ≠ none)
    (h : st.metrics.total = st.metrics.newFile + st.metrics.modifiedFile + st.metrics.skipped) :
    (walkStep s env sp st e).metrics.total =
      (walkStep s env sp st e).metrics.newFile + (walkStep s env sp st e).metrics.modifiedFile +
      (walkStep s env sp st e).metrics.skipped := by
  rcases walkStep_spec s env sp st e with
    ⟨_, heq⟩ | ⟨_, _, heq⟩ | ⟨obj, _, _, _, _, heq⟩ | ⟨obj, _, _, _, _, _, _, heq⟩ |
    ⟨obj, _, _, _, _, _, _, heq⟩ | ⟨obj, ha, hd, _, _, hso, hg, heq⟩ |
    ⟨obj, c, ck, _, _, _, _, _, _, _, heq⟩ | ⟨obj, c, ck, _, _, _, _, _, _, _, heq⟩ |
    ⟨_, _, _, _, heq⟩ | ⟨_, _, _, _, _, heq⟩ | ⟨c, ck, _, _, _, _, _, heq⟩
  · rw [heq]; simpa using h
  · rw [heq]; exact h
  · rw [heq]; simp; omega
  · rw [heq]; simp; omega
  · rw [heq]; simp; omega
  · rcases hgood with h1 | h1 | h1 | h1
    · rw [h1] at ha; cases ha
    · rw [h1] at hd; cases hd
    · rw [h1] at hso; cases hso
    · exact absurd hg h1
  · rw [heq]; simp; omega
  · rw [heq]; simp; omega
  · rw [heq]; simp; omega
  · rw [heq]; simp; omega
  · rw [heq]; simp; omega

end BunnySync

namespace BunnySync

/-! ### Whole-walk fold lemmas -/

theorem walkFold_lookup_none (s : BCDNSyncer) (env : SyncEnv) (sp : String)
    (l : List LocalEntry) (st : WalkState) {k : String}
    (h : lookupKey st.objMap k = none) :
    lookupKey (l.foldl (walkStep s env sp) st).objMap k = none := by
  induction l generalizing st with
  | nil => exact h
  | cons e t ih => exact ih _ (walkStep_lookup_none s env sp st e h)

theorem walkFold_lookup_preserved (s : BCDNSyncer) (env : SyncEnv) (sp : String)
    (l : List LocalEntry) (st : WalkState) {k : String}
    (hne : ∀ e ∈ l, entryRelPath sp e ≠ k) :
    lookupKey (l.foldl (walkStep s env sp) st).objMap k = lookupKey st.objMap k := by
  induction l generalizing st with
  | nil => rfl
  | cons e t ih =>
    rw [List.foldl_cons, ih _ (fun x hx => hne x (List.mem_cons_of_mem _ hx))]
    exact walkStep_lookup_preserved s env sp st e (hne e (List.mem_cons_self _ _))

theorem walkFold_opsFor_ne (s : BCDNSyncer) (env : SyncEnv) (sp : String)
    (l : List LocalEntry) (st : WalkState) {k : String}
    (hne : ∀ e ∈ l, entryRelPath sp e ≠ k) :
    opsFor (l.foldl (walkStep s env sp) st).operations k = opsFor st.operations k := by
  induction l generalizing st with
  | nil => rfl
  | cons e t ih =>
    rw [List.foldl_cons, ih _ (fun x hx => hne x (List.mem_cons_of_mem _ hx))]
    exact walkStep_opsFor_ne s env sp st e (hne e (List.mem_cons_self _ _))

theorem walkFold_no_mutation (s : BCDNSyncer) (env : SyncEnv) (sp : String)
    (l : List LocalEntry) (st : WalkState)
    (h : ∀ ev ∈ st.events, mutating ev = false) :
    ∀ ev ∈ (l.foldl (walkStep s env sp) st).events, mutating ev = false := by
  induction l generalizing st with
  | nil => exact h
  | cons e t ih => exact ih _ (walkStep_no_mutation s env sp st e h)

theorem walkFold_skipped_le (s : BCDNSyncer) (env : SyncEnv) (sp : String)
    (l : List LocalEntry) (st : WalkState) :
    st.metrics.skipped ≤ (l.foldl (walkStep s env sp) st).metrics.skipped ∧
    st.metrics.newFile ≤ (l.foldl (walkStep s env sp) st).metrics.newFile ∧
    (l.foldl (walkStep s env sp) st).metrics.deletedFile = st.metrics.deletedFile := by
  induction l generalizing st with
  | nil => exact ⟨le_refl _, le_refl _, rfl⟩
  | cons e t ih =>
    obtain ⟨h1, h2, h3⟩ := walkStep_skipped_le s env sp st e
    obtain ⟨i1, i2, i3⟩ := ih (walkStep s env sp st e)
    exact ⟨le_trans h1 i1, le_trans h2 i2, i3.trans h3⟩

theorem walkFold_sum (s : BCDNSyncer) (env : SyncEnv) (sp : String)
    (l : List LocalEntry) (st : WalkState)
    (hgood : ∀ e ∈ l, e.accessErr = true ∨ e.isDir = true ∨ s.SizeOnly = true ∨
             getFileContent env e.path ≠ none)
    (h : st.metrics.total = st.metrics.newFile + st.metrics.modifiedFile + st.metrics.skipped) :
    (l.foldl (walkStep s env sp) st).metrics.total =
      (l.foldl (walkStep s env sp) st).metrics.newFile +
      (l.foldl (walkStep s env sp) st).metrics.modifiedFile +
      (l.foldl (walkStep s env sp) st).metrics.skipped := by
  induction l generalizing st with
  | nil => exact h
  | cons e t ih =>
    exact ih _ (fun x hx => hgood x (List.mem_cons_of_mem _ hx))
      (walkStep_sum s env sp st e (hgood e (List.mem_cons_self _ _)) h)

theorem walkFold_readCount_le (s : BCDNSyncer) (env : SyncEnv) (sp : String)
    (l : List LocalEntry) (st : WalkState) (p : String) :
    readCount (l.foldl (walkStep s env sp) st).events p ≤
      readCount st.events p + (l.filter (fun e => decide (e.path = p))).length := by
  induction l generalizing st with
  | nil => simp
  | cons e t ih =>
    rw [List.foldl_cons]
    refine le_trans (ih (walkStep s env sp st e)) ?_
    by_cases hp : e.path = p
    · have h2 := walkStep_readCount_le s env sp st e p
      rw [if_pos hp] at h2
      have h3 : ((e :: t).filter (fun x => decide (x.path = p))).length
          = (t.filter (fun x => decide (x.path = p))).length + 1 := by
        simp [List.filter_cons, hp]
      rw [h3]
      omega
    · rw [walkStep_readCount_ne s env sp st e hp]
      have h3 : ((e :: t).filter (fun x => decide (x.path = p))).length
          = (t.filter (fun x => decide (x.path = p))).length := by
        simp [List.filter_cons, hp]
      rw [h3]

theorem walkFold_opsForPath_le (s : BCDNSyncer) (env : SyncEnv) (sp : String)
    (l : List LocalEntry) (st : WalkState) (p : String) :
    opsForPath (l.foldl (walkStep s env sp) st).operations p ≤
      opsForPath st.operations p + (l.filter (fun e => decide (e.path = p))).length := by
  induction l generalizing st with
  | nil => simp
  | cons e t ih =>
    rw [List.foldl_cons]
    refine le_trans (ih (walkStep s env sp st e)) ?_
    by_cases hp : e.path = p
    · have h2 := walkStep_opsForPath_le s env sp st e p
      rw [if_pos hp] at h2
      have h3 : ((e :: t).filter (fun x => decide (x.path = p))).length
          = (t.filter (fun x => decide (x.path = p))).length + 1 := by
        simp [List.filter_cons, hp]
      rw [h3]
      omega
    · rw [walkStep_opsForPath_ne s env sp st e hp]
      have h3 : ((e :: t).filter (fun x => decide (x.path = p))).length
          = (t.filter (fun x => decide (x.path = p))).length := by
        simp [List.filter_cons, hp]
      rw [h3]

end BunnySync

namespace BunnySync

/-! ### Upload-phase lemmas -/

theorem uploadUnit_spec (s : BCDNSyncer) (env : SyncEnv) (acc : PhaseResult) (op : operation) :
    (getFileContent env op.path = none ∧ uploadUnit s env acc op =
      { metrics := { acc.metrics with errors := acc.metrics.errors + 1 },
        events := acc.events ++ [Event.read op.path],
        errs := acc.errs + 1 }) ∨
    (∃ c ck, getFileContent env op.path = some (c, ck) ∧
      (uploadFile s env op.relPath c ck).2 = true ∧
      uploadUnit s env acc op =
        { acc with events := acc.events ++ [Event.read op.path] ++
            (uploadFile s env op.relPath c ck).1 }) ∨
    (∃ c ck, getFileContent env op.path = some (c, ck) ∧
      (uploadFile s env op.relPath c ck).2 = false ∧
      uploadUnit s env acc op =
        { metrics := { acc.metrics with errors := acc.metrics.errors + 1 },
          events := acc.events ++ [Event.read op.path] ++
            (uploadFile s env op.relPath c ck).1,
          errs := acc.errs + 1 }) := by
  cases hg : getFileContent env op.path with
  | none => exact Or.inl ⟨rfl, by simp [uploadUnit, hg]⟩
  | some pr =>
    obtain ⟨c, ck⟩ := pr
    by_cases hr : (uploadFile s env op.relPath c ck).2 = true
    · exact Or.inr (Or.inl ⟨c, ck, rfl, hr, by simp [uploadUnit, hg, hr]⟩)
    · rw [Bool.not_eq_true] at hr
      exact Or.inr (Or.inr ⟨c, ck, rfl, hr, by simp [uploadUnit, hg, hr]⟩)

theorem uploadFile_events (s : BCDNSyncer) (env : SyncEnv) (relPath : String)
    (c : List Nat) (ck : String) :
    (uploadFile s env relPath c ck).1 = [] ∨
    (uploadFile s env relPath c ck).1 = [Event.upload relPath] := by
  by_cases h : s.DryRun = true <;> simp [uploadFile, h]

theorem opsFold_metrics (s : BCDNSyncer) (env : SyncEnv) (ops : List operation) :
    ∀ acc : PhaseResult, ∃ d,
      (ops.foldl (uploadUnit s env) acc).errs = acc.errs + d ∧
      (ops.foldl (uploadUnit s env) acc).metrics =
        { acc.metrics with errors := acc.metrics.errors + d } := by
  induction ops with
  | nil => exact fun acc => ⟨0, by simp⟩
  | cons op t ih =>
    intro acc
    obtain ⟨d, hd1, hd2⟩ := ih (uploadUnit s env acc op)
    rcases uploadUnit_spec s env acc op with
      ⟨_, heq⟩ | ⟨c, ck, _, _, heq⟩ | ⟨c, ck, _, _, heq⟩
    · refine ⟨d + 1, ?_, ?_⟩
      · rw [List.foldl_cons, hd1, heq]; simp; omega
      · rw [List.foldl_cons, hd2, heq]; simp; try omega
    · refine ⟨d, ?_, ?_⟩
      · rw [List.foldl_cons, hd1, heq]
      · rw [List.foldl_cons, hd2, heq]
    · refine ⟨d + 1, ?_, ?_⟩
      · rw [List.foldl_cons, hd1, heq]; simp; omega
      · rw [List.foldl_cons, hd2, heq]; simp; try omega

theorem opsFold_delete_mem (s : BCDNSyncer) (env : SyncEnv) (ops : List operation)
    {p : String} :
    ∀ acc : PhaseResult, Event.delete p ∈ (ops.foldl (uploadUnit s env) acc).events →
      Event.delete p ∈ acc.events := by
  induction ops with
  | nil => exact fun acc h => h
  | cons op t ih =>
    intro acc h
    have h2 := ih (uploadUnit s env acc op) h
    rcases uploadUnit_spec s env acc op with
      ⟨_, heq⟩ | ⟨c, ck, _, _, heq⟩ | ⟨c, ck, _, _, heq⟩ <;>
    rw [heq] at h2 <;>
    [skip;
     rcases uploadFile_events s env op.relPath c ck with hu | hu;
     rcases uploadFile_events s env op.relPath c ck with hu | hu] <;>
    simp_all

theorem opsFold_readCount (s : BCDNSyncer) (env : SyncEnv) (ops : List operation)
    (p : String) :
    ∀ acc : PhaseResult, readCount (ops.foldl (uploadUnit s env) acc).events p =
      readCount acc.events p + opsForPath ops p := by
  induction ops with
  | nil => exact fun acc => by simp [opsForPath]
  | cons op t ih =>
    intro acc
    rw [List.foldl_cons, ih (uploadUnit s env acc op)]
    have hcount : readCount (uploadUnit s env acc op).events p =
        readCount acc.events p + (if op.path = p then 1 else 0) := by
      rcases uploadUnit_spec s env acc op with
        ⟨_, heq⟩ | ⟨c, ck, _, _, heq⟩ | ⟨c, ck, _, _, heq⟩ <;>
      rw [heq] <;>
      [skip;
       rcases uploadFile_events s env op.relPath c ck with hu | hu;
       rcases uploadFile_events s env op.relPath c ck with hu | hu] <;>
      by_cases hp : op.path = p <;>
      simp_all [readCount_append, readCount]
    rw [hcount]
    have hsplit : opsForPath (op :: t) p = (if op.path = p then 1 else 0) + opsForPath t p := by
      by_cases hp : op.path = p <;> simp [opsForPath, List.filter_cons, hp] <;> omega
    rw [hsplit]
    omega

theorem opsFold_dry_no_mutation (s : BCDNSyncer) (env : SyncEnv) (ops : List operation)
    (hdry : s.DryRun = true) :
    ∀ acc : PhaseResult, (∀ ev ∈ acc.events, mutating ev = false) →
      ∀ ev ∈ (ops.foldl (uploadUnit s env) acc).events, mutating ev = false := by
  induction ops with
  | nil => exact fun acc h => h
  | cons op t ih =>
    intro acc h
    refine ih (uploadUnit s env acc op) ?_
    have hup : ∀ c ck, (uploadFile s env op.relPath c ck).1 = [] := by
      intro c ck; simp [uploadFile, hdry]
    rcases uploadUnit_spec s env acc op with
      ⟨_, heq⟩ | ⟨c, ck, _, _, heq⟩ | ⟨c, ck, _, _, heq⟩ <;>
    rw [heq] <;>
    intro ev hev <;>
    simp only [hup] at hev <;>
    (have hev2 : ev ∈ acc.events ∨ ev = Event.read op.path := by simpa using hev) <;>
    (rcases hev2 with hev2 | hev2
     · exact h ev hev2
     · rw [hev2]; rfl)

theorem opsFold_upload_mem (s : BCDNSyncer) (env : SyncEnv) (ops : List operation)
    {p : String} :
    ∀ acc : PhaseResult, Event.upload p ∈ (ops.foldl (uploadUnit s env) acc).events →
      Event.upload p ∈ acc.events ∨ ∃ op ∈ ops, op.relPath = p := by
  induction ops with
  | nil => exact fun acc h => Or.inl h
  | cons op t ih =>
    intro acc h
    rcases ih (uploadUnit s env acc op) h with h2 | ⟨op2, hmem, hrel⟩
    · rcases uploadUnit_spec s env acc op with
        ⟨_, heq⟩ | ⟨c, ck, _, _, heq⟩ | ⟨c, ck, _, _, heq⟩
      · rw [heq] at h2
        exact Or.inl (by simpa using h2)
      · rw [heq] at h2
        rcases uploadFile_events s env op.relPath c ck with hu | hu <;> rw [hu] at h2
        · exact Or.inl (by simpa using h2)
        · have h3 : Event.upload p ∈ acc.events ∨ p = op.relPath := by simpa using h2
          rcases h3 with h3 | h3
          · exact Or.inl h3
          · exact Or.inr ⟨op, List.mem_cons_self _ _, h3.symm⟩
      · rw [heq] at h2
        rcases uploadFile_events s env op.relPath c ck with hu | hu <;> rw [hu] at h2
        · exact Or.inl (by simpa using h2)
        · have h3 : Event.upload p ∈ acc.events ∨ p = op.relPath := by simpa using h2
          rcases h3 with h3 | h3
          · exact Or.inl h3
          · exact Or.inr ⟨op, List.mem_cons_self _ _, h3.symm⟩
    · exact Or.inr ⟨op2, List.mem_cons_of_mem _ hmem, hrel⟩

end BunnySync

namespace BunnySync

/-! ### Delete-phase lemmas -/

theorem deleteUnit_spec (s : BCDNSyncer) (env : SyncEnv) (acc : PhaseResult) (q : String) :
    (s.DryRun = true ∧ deleteUnit s env acc q = { acc with events := acc.events ++ [] }) ∨
    (s.DryRun = false ∧ env.deleteOk q = true ∧
      deleteUnit s env acc q = { acc with events := acc.events ++ [Event.delete q] }) ∨
    (s.DryRun = false ∧ env.deleteOk q = false ∧
      deleteUnit s env acc q =
        { metrics := { acc.metrics with errors := acc.metrics.errors + 1 },
          events := acc.events ++ [Event.delete q],
          errs := acc.errs + 1 }) := by
  by_cases hdry : s.DryRun = true
  · exact Or.inl ⟨hdry, by simp [deleteUnit, deletePath, hdry]⟩
  · rw [Bool.not_eq_true] at hdry
    by_cases hok : env.deleteOk q = true
    · exact Or.inr (Or.inl ⟨hdry, hok, by simp [deleteUnit, deletePath, hdry, hok]⟩)
    · rw [Bool.not_eq_true] at hok
      exact Or.inr (Or.inr ⟨hdry, hok, by simp [deleteUnit, deletePath, hdry, hok]⟩)

theorem delFold_metrics (s : BCDNSyncer) (env : SyncEnv) (dops : List String) :
    ∀ acc : PhaseResult,
      (dops.foldl (deleteUnit s env) acc).errs = acc.errs + failedDeletes s env dops ∧
      (dops.foldl (deleteUnit s env) acc).metrics =
        { acc.metrics with errors := acc.metrics.errors + failedDeletes s env dops } := by
  induction dops with
  | nil => exact fun acc => ⟨by simp [failedDeletes], by simp [failedDeletes]⟩
  | cons q t ih =>
    intro acc
    obtain ⟨hd1, hd2⟩ := ih (deleteUnit s env acc q)
    rcases deleteUnit_spec s env acc q with
      ⟨hdry, heq⟩ | ⟨hdry, hok, heq⟩ | ⟨hdry, hok, heq⟩
    · have hf : failedDeletes s env (q :: t) = failedDeletes s env t := by
        simp [failedDeletes, hdry]
      constructor
      · rw [List.foldl_cons, hd1, heq, hf]
      · rw [List.foldl_cons, hd2, heq, hf]
    · have hf : failedDeletes s env (q :: t) = failedDeletes s env t := by
        simp [failedDeletes, hdry, List.filter_cons, hok]
      constructor
      · rw [List.foldl_cons, hd1, heq, hf]
      · rw [List.foldl_cons, hd2, heq, hf]
    · have hf : failedDeletes s env (q :: t) = failedDeletes s env t + 1 := by
        simp [failedDeletes, hdry, List.filter_cons, hok]
        try omega
      constructor
      · rw [List.foldl_cons, hd1, heq, hf]; simp; omega
      · rw [List.foldl_cons, hd2, heq, hf]; simp; try omega

theorem delFold_delete_mem (s : BCDNSyncer) (env : SyncEnv) (dops : List String)
    {p : String} :
    ∀ acc : PhaseResult, Event.delete p ∈ (dops.foldl (deleteUnit s env) acc).events →
      Event.delete p ∈ acc.events ∨ p ∈ dops := by
  induction dops with
  | nil => exact fun acc h => Or.inl h
  | cons q t ih =>
    intro acc h
    rcases ih (deleteUnit s env acc q) h with h2 | h2
    · rcases deleteUnit_spec s env acc q with
        ⟨hdry, heq⟩ | ⟨hdry, hok, heq⟩ | ⟨hdry, hok, heq⟩ <;> rw [heq] at h2
      · exact Or.inl (by simpa using h2)
      · have h3 : Event.delete p ∈ acc.events ∨ p = q := by simpa using h2
        rcases h3 with h3 | h3
        · exact Or.inl h3
        · exact Or.inr (h3 ▸ List.mem_cons_self _ _)
      · have h3 : Event.delete p ∈ acc.events ∨ p = q := by simpa using h2
        rcases h3 with h3 | h3
        · exact Or.inl h3
        · exact Or.inr (h3 ▸ List.mem_cons_self _ _)
    · exact Or.inr (List.mem_cons_of_mem _ h2)

theorem delFold_readCount (s : BCDNSyncer) (env : SyncEnv) (dops : List String)
    (p : String) :
    ∀ acc : PhaseResult, readCount (dops.foldl (deleteUnit s env) acc).events p =
      readCount acc.events p := by
  induction dops with
  | nil => exact fun acc => rfl
  | cons q t ih =>
    intro acc
    rw [List.foldl_cons, ih (deleteUnit s env acc q)]
    rcases deleteUnit_spec s env acc q with
      ⟨hdry, heq⟩ | ⟨hdry, hok, heq⟩ | ⟨hdry, hok, heq⟩ <;> rw [heq] <;>
    simp [readCount_append, readCount]

theorem delFold_dry_events (s : BCDNSyncer) (env : SyncEnv) (dops : List String)
    (hdry : s.DryRun = true) :
    ∀ acc : PhaseResult, (dops.foldl (deleteUnit s env) acc).events = acc.events := by
  induction dops with
  | nil => exact fun acc => rfl
  | cons q t ih =>
    intro acc
    rw [List.foldl_cons, ih (deleteUnit s env acc q)]
    simp [deleteUnit, deletePath, hdry]

end BunnySync

namespace BunnySync

/-! ### Phase wrappers (initial accumulator instantiated) -/

theorem processOps_metrics (s : BCDNSyncer) (env : SyncEnv) (ops : List operation)
    (m0 : syncMetrics) : ∃ d,
    (processOperationsConcurrently s env ops m0).errs = d ∧
    (processOperationsConcurrently s env ops m0).metrics =
      { m0 with errors := m0.errors + d } := by
  obtain ⟨d, h1, h2⟩ := opsFold_metrics s env ops ⟨m0, [], 0⟩
  exact ⟨d, by simpa using h1, by simpa using h2⟩

theorem processDeletes_metrics (s : BCDNSyncer) (env : SyncEnv) (dops : List String)
    (m0 : syncMetrics) :
    (processDeletesConcurrently s env dops m0).errs = failedDeletes s env dops ∧
    (processDeletesConcurrently s env dops m0).metrics =
      { m0 with errors := m0.errors + failedDeletes s env dops } := by
  obtain ⟨h1, h2⟩ := delFold_metrics s env dops ⟨m0, [], 0⟩
  exact ⟨by simpa using h1, by simpa using h2⟩

theorem processOps_delete_not_mem (s : BCDNSyncer) (env : SyncEnv) (ops : List operation)
    (m0 : syncMetrics) {p : String} :
    Event.delete p ∉ (processOperationsConcurrently s env ops m0).events := by
  intro h
  have h2 := opsFold_delete_mem s env ops ⟨m0, [], 0⟩ h
  simp at h2

theorem processOps_readCount (s : BCDNSyncer) (env : SyncEnv) (ops : List operation)
    (m0 : syncMetrics) (p : String) :
    readCount (processOperationsConcurrently s env ops m0).events p = opsForPath ops p := by
  have h := opsFold_readCount s env ops p ⟨m0, [], 0⟩
  simpa [readCount] using h

theorem processDeletes_delete_mem (s : BCDNSyncer) (env : SyncEnv) (dops : List String)
    (m0 : syncMetrics) {p : String}
    (h : Event.delete p ∈ (processDeletesConcurrently s env dops m0).events) : p ∈ dops := by
  have h2 := delFold_delete_mem s env dops ⟨m0, [], 0⟩ h
  simpa using h2

theorem processDeletes_readCount (s : BCDNSyncer) (env : SyncEnv) (dops : List String)
    (m0 : syncMetrics) (p : String) :
    readCount (processDeletesConcurrently s env dops m0).events p = 0 := by
  have h := delFold_readCount s env dops p ⟨m0, [], 0⟩
  simpa [readCount] using h

theorem processDeletes_dry_events (s : BCDNSyncer) (env : SyncEnv) (dops : List String)
    (m0 : syncMetrics) (hdry : s.DryRun = true) :
    (processDeletesConcurrently s env dops m0).events = [] := by
  have h := delFold_dry_events s env dops hdry ⟨m0, [], 0⟩
  simpa using h

theorem uploadPhase_metrics (s : BCDNSyncer) (env : SyncEnv) (st : WalkState) : ∃ d,
    (uploadPhase s env st).errs = d ∧
    (uploadPhase s env st).metrics = { st.metrics with errors := st.metrics.errors + d } := by
  unfold uploadPhase
  split
  · exact ⟨0, rfl, by simp⟩
  · exact processOps_metrics s env st.operations st.metrics

theorem uploadPhase_delete_not_mem (s : BCDNSyncer) (env : SyncEnv) (st : WalkState)
    {p : String} : Event.delete p ∉ (uploadPhase s env st).events := by
  unfold uploadPhase
  split
  · simp
  · exact processOps_delete_not_mem s env st.operations st.metrics

theorem uploadPhase_readCount (s : BCDNSyncer) (env : SyncEnv) (st : WalkState)
    (p : String) :
    readCount (uploadPhase s env st).events p = opsForPath st.operations p := by
  unfold uploadPhase
  split
  · next hemp =>
    rw [List.isEmpty_iff] at hemp
    simp [hemp, readCount, opsForPath]
  · exact processOps_readCount s env st.operations st.metrics p

theorem uploadPhase_dry_no_mutation (s : BCDNSyncer) (env : SyncEnv) (st : WalkState)
    (hdry : s.DryRun = true) :
    ∀ ev ∈ (uploadPhase s env st).events, mutating ev = false := by
  unfold uploadPhase
  split
  · simp
  · exact opsFold_dry_no_mutation s env st.operations hdry ⟨st.metrics, [], 0⟩ (by simp)

theorem uploadPhase_upload_mem (s : BCDNSyncer) (env : SyncEnv) (st : WalkState)
    {p : String} (h : Event.upload p ∈ (uploadPhase s env st).events) :
    ∃ op ∈ st.operations, op.relPath = p := by
  unfold uploadPhase at h
  split at h
  · simp at h
  · have h2 := opsFold_upload_mem s env st.operations ⟨st.metrics, [], 0⟩ h
    simpa using h2

end BunnySync

namespace BunnySync

/-! ### Component corollaries of the phase lemmas -/

theorem processDeletes_total (s : BCDNSyncer) (env : SyncEnv) (dops : List String)
    (m0 : syncMetrics) :
    (processDeletesConcurrently s env dops m0).metrics.total = m0.total := by
  rw [(processDeletes_metrics s env dops m0).2]

theorem processDeletes_newFile (s : BCDNSyncer) (env : SyncEnv) (dops : List String)
    (m0 : syncMetrics) :
    (processDeletesConcurrently s env dops m0).metrics.newFile = m0.newFile := by
  rw [(processDeletes_metrics s env dops m0).2]

theorem processDeletes_modifiedFile (s : BCDNSyncer) (env : SyncEnv) (dops : List String)
    (m0 : syncMetrics) :
    (processDeletesConcurrently s env dops m0).metrics.modifiedFile = m0.modifiedFile := by
  rw [(processDeletes_metrics s env dops m0).2]

theorem processDeletes_skipped (s : BCDNSyncer) (env : SyncEnv) (dops : List String)
    (m0 : syncMetrics) :
    (processDeletesConcurrently s env dops m0).metrics.skipped = m0.skipped := by
  rw [(processDeletes_metrics s env dops m0).2]

theorem processDeletes_deletedFile (s : BCDNSyncer) (env : SyncEnv) (dops : List String)
    (m0 : syncMetrics) :
    (processDeletesConcurrently s env dops m0).metrics.deletedFile = m0.deletedFile := by
  rw [(processDeletes_metrics s env dops m0).2]

theorem processDeletes_errors (s : BCDNSyncer) (env : SyncEnv) (dops : List String)
    (m0 : syncMetrics) :
    (processDeletesConcurrently s env dops m0).metrics.errors =
      m0.errors + failedDeletes s env dops := by
  rw [(processDeletes_metrics s env dops m0).2]

theorem processDeletes_errs (s : BCDNSyncer) (env : SyncEnv) (dops : List String)
    (m0 : syncMetrics) :
    (processDeletesConcurrently s env dops m0).errs = failedDeletes s env dops :=
  (processDeletes_metrics s env dops m0).1

theorem uploadPhase_total (s : BCDNSyncer) (env : SyncEnv) (st : WalkState) :
    (uploadPhase s env st).metrics.total = st.metrics.total := by
  obtain ⟨d, _, h2⟩ := uploadPhase_metrics s env st
  rw [h2]

theorem uploadPhase_newFile (s : BCDNSyncer) (env : SyncEnv) (st : WalkState) :
    (uploadPhase s env st).metrics.newFile = st.metrics.newFile := by
  obtain ⟨d, _, h2⟩ := uploadPhase_metrics s env st
  rw [h2]

theorem uploadPhase_modifiedFile (s : BCDNSyncer) (env : SyncEnv) (st : WalkState) :
    (uploadPhase s env st).metrics.modifiedFile = st.metrics.modifiedFile := by
  obtain ⟨d, _, h2⟩ := uploadPhase_metrics s env st
  rw [h2]

theorem uploadPhase_skipped (s : BCDNSyncer) (env : SyncEnv) (st : WalkState) :
    (uploadPhase s env st).metrics.skipped = st.metrics.skipped := by
  obtain ⟨d, _, h2⟩ := uploadPhase_metrics s env st
  rw [h2]

theorem uploadPhase_deletedFile (s : BCDNSyncer) (env : SyncEnv) (st : WalkState) :
    (uploadPhase s env st).metrics.deletedFile = st.metrics.deletedFile := by
  obtain ⟨d, _, h2⟩ := uploadPhase_metrics s env st
  rw [h2]

theorem uploadPhase_errors (s : BCDNSyncer) (env : SyncEnv) (st : WalkState) :
    (uploadPhase s env st).metrics.errors =
      st.metrics.errors + (uploadPhase s env st).errs := by
  obtain ⟨d, h1, h2⟩ := uploadPhase_metrics s env st
  rw [h1, h2]

end BunnySync

namespace BunnySync

/-! ### Branch catalogue for syncCore

`syncCore_spec` enumerates the four exit paths of `Sync` after a
successful fetch: early return on upload errors (syncer.go line 216),
early return on delete errors (line 237), the summary path with the
delete phase run, and the summary path without it. -/

theorem syncCore_spec (s : BCDNSyncer) (env : SyncEnv) (sp : String) (m0 : ObjMap) :
    (0 < (uploadPhase s env (walkResult s env sp m0)).errs ∧
      (syncCore s env sp m0).err.isSome = true ∧
      (syncCore s env sp m0).events = (walkResult s env sp m0).events ++ (uploadPhase s env (walkResult s env sp m0)).events ∧
      (syncCore s env sp m0).metrics = (uploadPhase s env (walkResult s env sp m0)).metrics ∧
      (syncCore s env sp m0).operations = (walkResult s env sp m0).operations ∧
      (syncCore s env sp m0).residual = (walkResult s env sp m0).objMap ∧
      (syncCore s env sp m0).summaryPrinted = false) ∨
    ((uploadPhase s env (walkResult s env sp m0)).errs = 0 ∧
      (!(deleteCandidates (walkResult s env sp m0).objMap).isEmpty && s.Delete) = true ∧
      0 < (processDeletesConcurrently s env (deleteCandidates (walkResult s env sp m0).objMap)
      { (uploadPhase s env (walkResult s env sp m0)).metrics with
          deletedFile := (deleteCandidates (walkResult s env sp m0).objMap).length }).errs ∧
      (syncCore s env sp m0).err.isSome = true ∧
      (syncCore s env sp m0).events = (walkResult s env sp m0).events ++ (uploadPhase s env (walkResult s env sp m0)).events ++ (processDeletesConcurrently s env (deleteCandidates (walkResult s env sp m0).objMap)
      { (uploadPhase s env (walkResult s env sp m0)).metrics with
          deletedFile := (deleteCandidates (walkResult s env sp m0).objMap).length }).events ∧
      (syncCore s env sp m0).metrics = (processDeletesConcurrently s env (deleteCandidates (walkResult s env sp m0).objMap)
      { (uploadPhase s env (walkResult s env sp m0)).metrics with
          deletedFile := (deleteCandidates (walkResult s env sp m0).objMap).length }).metrics ∧
      (syncCore s env sp m0).operations = (walkResult s env sp m0).operations ∧
      (syncCore s env sp m0).residual = (walkResult s env sp m0).objMap ∧
      (syncCore s env sp m0).summaryPrinted = false) ∨
    ((uploadPhase s env (walkResult s env sp m0)).errs = 0 ∧
      (!(deleteCandidates (walkResult s env sp m0).objMap).isEmpty && s.Delete) = true ∧
      (processDeletesConcurrently s env (deleteCandidates (walkResult s env sp m0).objMap)
      { (uploadPhase s env (walkResult s env sp m0)).metrics with
          deletedFile := (deleteCandidates (walkResult s env sp m0).objMap).length }).errs = 0 ∧
      ((syncCore s env sp m0).err.isSome ↔ 0 < (processDeletesConcurrently s env (deleteCandidates (walkResult s env sp m0).objMap)
      { (uploadPhase s env (walkResult s env sp m0)).metrics with
          deletedFile := (deleteCandidates (walkResult s env sp m0).objMap).length }).metrics.errors) ∧
      (syncCore s env sp m0).events = (walkResult s env sp m0).events ++ (uploadPhase s env (walkResult s env sp m0)).events ++ (processDeletesConcurrently s env (deleteCandidates (walkResult s env sp m0).objMap)
      { (uploadPhase s env (walkResult s env sp m0)).metrics with
          deletedFile := (deleteCandidates (walkResult s env sp m0).objMap).length }).events ∧
      (syncCore s env sp m0).metrics = (processDeletesConcurrently s env (deleteCandidates (walkResult s env sp m0).objMap)
      { (uploadPhase s env (walkResult s env sp m0)).metrics with
          deletedFile := (deleteCandidates (walkResult s env sp m0).objMap).length }).metrics ∧
      (syncCore s env sp m0).operations = (walkResult s env sp m0).operations ∧
      (syncCore s env sp m0).residual = (walkResult s env sp m0).objMap ∧
      (syncCore s env sp m0).summaryPrinted = true) ∨
    ((uploadPhase s env (walkResult s env sp m0)).errs = 0 ∧
      (!(deleteCandidates (walkResult s env sp m0).objMap).isEmpty && s.Delete) = false ∧
      ((syncCore s env sp m0).err.isSome ↔ 0 < (uploadPhase s env (walkResult s env sp m0)).metrics.errors) ∧
      (syncCore s env sp m0).events = (walkResult s env sp m0).events ++ (uploadPhase s env (walkResult s env sp m0)).events ∧
      (syncCore s env sp m0).metrics = (uploadPhase s env (walkResult s env sp m0)).metrics ∧
      (syncCore s env sp m0).operations = (walkResult s env sp m0).operations ∧
      (syncCore s env sp m0).residual = (walkResult s env sp m0).objMap ∧
      (syncCore s env sp m0).summaryPrinted = true) := by
  simp only [syncCore]
  split
  · next h1 => exact Or.inl ⟨h1, rfl, rfl, rfl, rfl, rfl, rfl⟩
  · next h1 =>
    split
    · next h2 =>
      split
      · next h3 =>
        exact Or.inr (Or.inl ⟨by omega, h2, h3, rfl, rfl, rfl, rfl, rfl, rfl⟩)
      · next h3 =>
        refine Or.inr (Or.inr (Or.inl ⟨by omega, h2, by omega, ?_, rfl, rfl, rfl, rfl, rfl⟩))
        by_cases hx : 0 < (processDeletesConcurrently s env (deleteCandidates (walkResult s env sp m0).objMap)
      { (uploadPhase s env (walkResult s env sp m0)).metrics with
          deletedFile := (deleteCandidates (walkResult s env sp m0).objMap).length }).metrics.errors <;> simp [hx]
    · next h2 =>
      refine Or.inr (Or.inr (Or.inr ⟨by omega, by simpa using h2, ?_, rfl, rfl, rfl, rfl, rfl⟩))
      by_cases hx : 0 < (uploadPhase s env (walkResult s env sp m0)).metrics.errors <;> simp [hx]

end BunnySync

namespace BunnySync

/-! ### syncCore-level lemmas -/

theorem syncCore_counts (s : BCDNSyncer) (env : SyncEnv) (sp : String) (m0 : ObjMap) :
    (syncCore s env sp m0).metrics.total = (walkResult s env sp m0).metrics.total ∧
    (syncCore s env sp m0).metrics.newFile = (walkResult s env sp m0).metrics.newFile ∧
    (syncCore s env sp m0).metrics.modifiedFile =
      (walkResult s env sp m0).metrics.modifiedFile ∧
    (syncCore s env sp m0).metrics.skipped = (walkResult s env sp m0).metrics.skipped := by
  rcases syncCore_spec s env sp m0 with
    ⟨_, _, _, hm, _, _, _⟩ | ⟨_, _, _, _, _, hm, _, _, _⟩ |
    ⟨_, _, _, _, _, hm, _, _, _⟩ | ⟨_, _, _, _, hm, _, _, _⟩ <;>
  rw [hm] <;>
  simp [processDeletes_total, processDeletes_newFile, processDeletes_modifiedFile,
        processDeletes_skipped, uploadPhase_total, uploadPhase_newFile,
        uploadPhase_modifiedFile, uploadPhase_skipped]

theorem syncCore_operations_eq (s : BCDNSyncer) (env : SyncEnv) (sp : String) (m0 : ObjMap) :
    (syncCore s env sp m0).operations = (walkResult s env sp m0).operations := by
  rcases syncCore_spec s env sp m0 with
    ⟨_, _, _, _, hop, _, _⟩ | ⟨_, _, _, _, _, _, hop, _, _⟩ |
    ⟨_, _, _, _, _, _, hop, _, _⟩ | ⟨_, _, _, _, _, hop, _, _⟩ <;>
  exact hop

theorem syncCore_residual_eq (s : BCDNSyncer) (env : SyncEnv) (sp : String) (m0 : ObjMap) :
    (syncCore s env sp m0).residual = (walkResult s env sp m0).objMap := by
  rcases syncCore_spec s env sp m0 with
    ⟨_, _, _, _, _, hre, _⟩ | ⟨_, _, _, _, _, _, _, hre, _⟩ |
    ⟨_, _, _, _, _, _, _, hre, _⟩ | ⟨_, _, _, _, _, _, hre, _⟩ <;>
  exact hre

theorem syncCore_err_iff (s : BCDNSyncer) (env : SyncEnv) (sp : String) (m0 : ObjMap) :
    ((syncCore s env sp m0).err.isSome = true ↔ 0 < (syncCore s env sp m0).metrics.errors) := by
  rcases syncCore_spec s env sp m0 with
    ⟨he, hs, _, hm, _, _, _⟩ | ⟨hue, _, he, hs, _, hm, _, _, _⟩ |
    ⟨hue, _, hde, hiff, _, hm, _, _, _⟩ | ⟨hue, _, hiff, _, hm, _, _, _⟩
  · rw [hs, hm, uploadPhase_errors]
    simp
    omega
  · rw [processDeletes_errs] at he
    rw [hs, hm, processDeletes_errors]
    simp
    omega
  · rw [hm]
    exact hiff
  · rw [hm]
    exact hiff

theorem syncCore_delete_event (s : BCDNSyncer) (env : SyncEnv) (sp : String) (m0 : ObjMap)
    {p : String} (h : Event.delete p ∈ (syncCore s env sp m0).events) :
    ∃ o, (p, o) ∈ (walkResult s env sp m0).objMap ∧ o.isDirectory = false := by
  have hwalk : ∀ ev ∈ (walkResult s env sp m0).events, mutating ev = false :=
    walkFold_no_mutation s env sp env.localTree _ (by intro ev hev; simp at hev)
  have hno_st : Event.delete p ∉ (walkResult s env sp m0).events := by
    intro hmem
    have h2 := hwalk _ hmem
    simp [mutating] at h2
  have hno_up : Event.delete p ∉ (uploadPhase s env (walkResult s env sp m0)).events :=
    uploadPhase_delete_not_mem s env _
  rcases syncCore_spec s env sp m0 with
    ⟨_, _, hev, _, _, _, _⟩ | ⟨_, _, _, _, hev, _, _, _, _⟩ |
    ⟨_, _, _, _, hev, _, _, _, _⟩ | ⟨_, _, _, hev, _, _, _, _⟩
  · rw [hev] at h
    rcases List.mem_append.mp h with h2 | h2
    · exact absurd h2 hno_st
    · exact absurd h2 hno_up
  · rw [hev] at h
    rcases List.mem_append.mp h with h2 | h2
    · rcases List.mem_append.mp h2 with h3 | h3
      · exact absurd h3 hno_st
      · exact absurd h3 hno_up
    · exact mem_deleteCandidates.mp (processDeletes_delete_mem s env _ _ h2)
  · rw [hev] at h
    rcases List.mem_append.mp h with h2 | h2
    · rcases List.mem_append.mp h2 with h3 | h3
      · exact absurd h3 hno_st
      · exact absurd h3 hno_up
    · exact mem_deleteCandidates.mp (processDeletes_delete_mem s env _ _ h2)
  · rw [hev] at h
    rcases List.mem_append.mp h with h2 | h2
    · exact absurd h2 hno_st
    · exact absurd h2 hno_up

theorem syncCore_dry_no_mutation (s : BCDNSyncer) (env : SyncEnv) (sp : String)
    (m0 : ObjMap) (hdry : s.DryRun = true) :
    ∀ ev ∈ (syncCore s env sp m0).events, mutating ev = false := by
  have hwalk : ∀ ev ∈ (walkResult s env sp m0).events, mutating ev = false :=
    walkFold_no_mutation s env sp env.localTree _ (by intro ev hev; simp at hev)
  have hup := uploadPhase_dry_no_mutation s env (walkResult s env sp m0) hdry
  rcases syncCore_spec s env sp m0 with
    ⟨_, _, hev, _, _, _, _⟩ | ⟨_, _, _, _, hev, _, _, _, _⟩ |
    ⟨_, _, _, _, hev, _, _, _, _⟩ | ⟨_, _, _, hev, _, _, _, _⟩ <;>
  rw [hev] <;>
  intro ev hmem
  · rcases List.mem_append.mp hmem with h2 | h2
    · exact hwalk ev h2
    · exact hup ev h2
  · rw [processDeletes_dry_events s env _ _ hdry] at hmem
    rcases List.mem_append.mp hmem with h2 | h2
    · rcases List.mem_append.mp h2 with h3 | h3
      · exact hwalk ev h3
      · exact hup ev h3
    · simp at h2
  · rw [processDeletes_dry_events s env _ _ hdry] at hmem
    rcases List.mem_append.mp hmem with h2 | h2
    · rcases List.mem_append.mp h2 with h3 | h3
      · exact hwalk ev h3
      · exact hup ev h3
    · simp at h2
  · rcases List.mem_append.mp hmem with h2 | h2
    · exact hwalk ev h2
    · exact hup ev h2

theorem syncCore_readCount (s : BCDNSyncer) (env : SyncEnv) (sp : String) (m0 : ObjMap)
    (p : String) :
    readCount (syncCore s env sp m0).events p =
      readCount (walkResult s env sp m0).events p +
      opsForPath (walkResult s env sp m0).operations p := by
  rcases syncCore_spec s env sp m0 with
    ⟨_, _, hev, _, _, _, _⟩ | ⟨_, _, _, _, hev, _, _, _, _⟩ |
    ⟨_, _, _, _, hev, _, _, _, _⟩ | ⟨_, _, _, hev, _, _, _, _⟩ <;>
  rw [hev] <;>
  simp [readCount_append, uploadPhase_readCount, processDeletes_readCount]

theorem syncCore_deleted_count (s : BCDNSyncer) (env : SyncEnv) (sp : String)
    (m0 : ObjMap) (hdel : s.Delete = true)
    (hup : (uploadPhase s env (walkResult s env sp m0)).errs = 0) :
    (syncCore s env sp m0).metrics.deletedFile =
      (deleteCandidates (walkResult s env sp m0).objMap).length ∧
    (syncCore s env sp m0).metrics.errors =
      (uploadPhase s env (walkResult s env sp m0)).metrics.errors +
      failedDeletes s env (deleteCandidates (walkResult s env sp m0).objMap) := by
  have hwdf : (walkResult s env sp m0).metrics.deletedFile = 0 := by
    have h3 := (walkFold_skipped_le s env sp env.localTree
      { objMap := m0, metrics := syncMetrics.init, operations := [], events := [] }).2.2
    simpa [syncMetrics.init] using h3
  rcases syncCore_spec s env sp m0 with
    ⟨he, _, _, _, _, _, _⟩ | ⟨_, _, _, _, _, hm, _, _, _⟩ |
    ⟨_, _, _, _, _, hm, _, _, _⟩ | ⟨_, hg, _, _, hm, _, _, _⟩
  · omega
  · constructor
    · rw [hm, processDeletes_deletedFile]
    · rw [hm, processDeletes_errors]
  · constructor
    · rw [hm, processDeletes_deletedFile]
    · rw [hm, processDeletes_errors]
  · rw [hdel] at hg
    simp only [Bool.and_true, Bool.not_eq_false'] at hg
    have hnil : deleteCandidates (walkResult s env sp m0).objMap = [] :=
      List.isEmpty_iff.mp hg
    constructor
    · rw [hm, uploadPhase_deletedFile, hwdf, hnil]
      rfl
    · rw [hm, uploadPhase_errors, hup, hnil]
      have : failedDeletes s env [] = 0 := by
        cases hdry : s.DryRun <;> simp [failedDeletes, hdry]
      rw [this]

end BunnySync

namespace BunnySync

/-! ### Sync-level glue -/

theorem Sync_eq_syncCore (s : BCDNSyncer) (env : SyncEnv) (sp0 : String) (fuel : Nat)
    (m0 : ObjMap) (hsrc : env.sourceOk = true)
    (hfetch : fetchAllObjects env fuel (trimSlashes sp0) = some (Except.ok m0)) :
    Sync s env sp0 fuel = some (syncCore s env (trimSlashes sp0) m0) := by
  simp [Sync, hsrc, hfetch]

theorem Sync_outcome_eq (s : BCDNSyncer) (env : SyncEnv) (sp0 : String) (fuel : Nat)
    (m0 : ObjMap) (out : SyncOutcome) (hsrc : env.sourceOk = true)
    (hfetch : fetchAllObjects env fuel (trimSlashes sp0) = some (Except.ok m0))
    (hrun : Sync s env sp0 fuel = some out) :
    out = syncCore s env (trimSlashes sp0) m0 := by
  have h2 := Sync_eq_syncCore s env sp0 fuel m0 hsrc hfetch
  rw [hrun] at h2
  exact Option.some.inj h2

theorem walkResult_entry_removed (s : BCDNSyncer) (env : SyncEnv) (sp : String)
    (m0 : ObjMap) (l1 l2 : List LocalEntry) (e : LocalEntry)
    (htree : env.localTree = l1 ++ e :: l2)
    (hacc : e.accessErr = false) (hdir : e.isDir = false)
    (hread : s.SizeOnly = true ∨ getFileContent env e.path ≠ none) :
    lookupKey (walkResult s env sp m0).objMap (entryRelPath sp e) = none := by
  unfold walkResult
  rw [htree, List.foldl_append, List.foldl_cons]
  exact walkFold_lookup_none s env sp l2 _
    (walkStep_lookup_self_none s env sp _ e hacc hdir hread)

end BunnySync

namespace BunnySync

/-! ### Claim theorems -/

/-- C1 (amended): every local file that the walk reaches and that does not
hit a read error during the checksum comparison (that is, size-only mode is
active or its content read succeeds) has its entry removed from the remote
map by the end of the walk; such a path is neither a delete candidate nor
ever passed to the delete collaborator.  (The amendment is forced by the
read-error branch of syncer.go lines 149-156, which returns before the
`delete(objMap, relPath)` at line 202.) -/
theorem matched_entry_removed_unless_read_fails (s : BCDNSyncer) (env : SyncEnv)
    (sp0 : String) (fuel : Nat) (m0 : ObjMap) (out : SyncOutcome)
    (l1 l2 : List LocalEntry) (e : LocalEntry)
    (hsrc : env.sourceOk = true)
    (hfetch : fetchAllObjects env fuel (trimSlashes sp0) = some (Except.ok m0))
    (hrun : Sync s env sp0 fuel = some out)
    (htree : env.localTree = l1 ++ e :: l2)
    (hacc : e.accessErr = false) (hdir : e.isDir = false)
    (hread : s.SizeOnly = true ∨ getFileContent env e.path ≠ none) :
    lookupKey out.residual (entryRelPath (trimSlashes sp0) e) = none ∧
    entryRelPath (trimSlashes sp0) e ∉ deleteCandidates out.residual ∧
    Event.delete (entryRelPath (trimSlashes sp0) e) ∉ out.events := by
  obtain rfl := Sync_outcome_eq s env sp0 fuel m0 out hsrc hfetch hrun
  have hres := syncCore_residual_eq s env (trimSlashes sp0) m0
  have hlook := walkResult_entry_removed s env (trimSlashes sp0) m0 l1 l2 e htree hacc hdir hread
  refine ⟨by rw [hres]; exact hlook, ?_, ?_⟩
  · intro hmem
    rw [hres] at hmem
    rcases mem_deleteCandidates.mp hmem with ⟨o, ho, _⟩
    exact lookupKey_isSome_of_mem ho hlook
  · intro hmem
    rcases syncCore_delete_event s env (trimSlashes sp0) m0 hmem with ⟨o, ho, _⟩
    exact lookupKey_isSome_of_mem ho hlook

/-- C1 counterexample: in checksum mode, a local file whose content read
fails leaves its matched remote entry in the map, and with `Delete` enabled
that path is passed to the delete collaborator even though a local file
with that relative path exists — refuting the claim that a path with a
local counterpart is never passed to the delete phase. -/
theorem matched_entry_can_reach_delete_phase_on_read_error :
    (∃ e ∈ envReadFail.localTree, e.accessErr = false ∧ e.isDir = false ∧
      entryRelPath (trimSlashes "") e = "a.txt") ∧
    Event.delete "a.txt" ∈ syncEvents (Sync cfgDel envReadFail "" 2) := by
  decide

theorem matched_entry_removed_unless_read_fails_witness :
    ∃ out, Sync cfgDel envMatch "" 2 = some out ∧
      (lookupKey out.residual (entryRelPath (trimSlashes "") (entEx "/l/a.txt" "a.txt" 2)) = none ∧
       entryRelPath (trimSlashes "") (entEx "/l/a.txt" "a.txt" 2) ∉
         deleteCandidates out.residual ∧
       Event.delete (entryRelPath (trimSlashes "") (entEx "/l/a.txt" "a.txt" 2)) ∉ out.events) :=
  ⟨_, rfl, matched_entry_removed_unless_read_fails cfgDel envMatch "" 2 _ _
    [] [] (entEx "/l/a.txt" "a.txt" 2) rfl rfl rfl rfl rfl rfl (Or.inr (by decide))⟩

end BunnySync

namespace BunnySync

/-- C2: with `DryRun` set, a run performs zero mutating transport calls
(no upload and no delete events), and its classification counts — total,
new, modified, skipped — and its delete-candidate set are identical to the
run with `DryRun` unset over the same local tree and remote state. -/
theorem dry_run_no_mutations_and_same_counts (s : BCDNSyncer) (env : SyncEnv)
    (sp0 : String) (fuel : Nat) (o₁ o₂ : SyncOutcome)
    (h₁ : Sync { s with DryRun := true } env sp0 fuel = some o₁)
    (h₂ : Sync { s with DryRun := false } env sp0 fuel = some o₂) :
    o₁.events.filter mutating = [] ∧
    o₁.metrics.total = o₂.metrics.total ∧
    o₁.metrics.newFile = o₂.metrics.newFile ∧
    o₁.metrics.modifiedFile = o₂.metrics.modifiedFile ∧
    o₁.metrics.skipped = o₂.metrics.skipped ∧
    deleteCandidates o₁.residual = deleteCandidates o₂.residual := by
  simp only [Sync] at h₁ h₂
  by_cases hsrc : env.sourceOk = false
  · rw [if_pos hsrc] at h₁ h₂
    injection h₁ with h₁'
    injection h₂ with h₂'
    subst h₁'
    subst h₂'
    exact ⟨rfl, rfl, rfl, rfl, rfl, rfl⟩
  · rw [if_neg hsrc] at h₁ h₂
    cases hfetch : fetchAllObjects env fuel (trimSlashes sp0) with
    | none =>
      rw [hfetch] at h₁
      cases h₁
    | some r =>
      cases r with
      | error msg =>
        rw [hfetch] at h₁ h₂
        injection h₁ with h₁'
        injection h₂ with h₂'
        subst h₁'
        subst h₂'
        exact ⟨rfl, rfl, rfl, rfl, rfl, rfl⟩
      | ok m0 =>
        rw [hfetch] at h₁ h₂
        injection h₁ with h₁'
        injection h₂ with h₂'
        subst h₁'
        subst h₂'
        have hw : walkResult { s with DryRun := true } env (trimSlashes sp0) m0 =
            walkResult { s with DryRun := false } env (trimSlashes sp0) m0 := rfl
        obtain ⟨t1, n1, mo1, s1⟩ :=
          syncCore_counts { s with DryRun := true } env (trimSlashes sp0) m0
        obtain ⟨t2, n2, mo2, s2⟩ :=
          syncCore_counts { s with DryRun := false } env (trimSlashes sp0) m0
        have hres1 := syncCore_residual_eq { s with DryRun := true } env (trimSlashes sp0) m0
        have hres2 := syncCore_residual_eq { s with DryRun := false } env (trimSlashes sp0) m0
        have hmut := syncCore_dry_no_mutation { s with DryRun := true } env (trimSlashes sp0)
          m0 rfl
        refine ⟨?_, ?_, ?_, ?_, ?_, ?_⟩
        · exact List.filter_eq_nil_iff.mpr (fun ev hev => by simp [hmut ev hev])
        · rw [t1, t2, hw]
        · rw [n1, n2, hw]
        · rw [mo1, mo2, hw]
        · rw [s1, s2, hw]
        · rw [hres1, hres2, hw]

theorem dry_run_no_mutations_and_same_counts_witness :
    ∃ o₁ o₂, Sync { cfgDel with DryRun := true } envModified "" 2 = some o₁ ∧
      Sync { cfgDel with DryRun := false } envModified "" 2 = some o₂ ∧
      (o₁.events.filter mutating = [] ∧
       o₁.metrics.total = o₂.metrics.total ∧
       o₁.metrics.newFile = o₂.metrics.newFile ∧
       o₁.metrics.modifiedFile = o₂.metrics.modifiedFile ∧
       o₁.metrics.skipped = o₂.metrics.skipped ∧
       deleteCandidates o₁.residual = deleteCandidates o₂.residual) :=
  ⟨_, _, rfl, rfl,
    dry_run_no_mutations_and_same_counts cfgDel envModified "" 2 _ _ rfl rfl⟩

end BunnySync

namespace BunnySync

/-- C3 (amended): the invariant
`totalScanned = newFiles + modifiedFiles + skippedFiles` holds at the end of
every run in which no walked file hits a content-read error (in particular
it always holds in size-only mode); directories and deletes are never
counted in these three classification counters.  (The amendment is forced
by the checksum-comparison read-error branch, syncer.go lines 149-156,
which increments `total` and `errors` but none of the three classification
counters.) -/
theorem metrics_sum_holds_without_read_errors (s : BCDNSyncer) (env : SyncEnv)
    (sp0 : String) (fuel : Nat) (m0 : ObjMap) (out : SyncOutcome)
    (hsrc : env.sourceOk = true)
    (hfetch : fetchAllObjects env fuel (trimSlashes sp0) = some (Except.ok m0))
    (hrun : Sync s env sp0 fuel = some out)
    (hgood : ∀ e ∈ env.localTree, e.accessErr = true ∨ e.isDir = true ∨
      s.SizeOnly = true ∨ getFileContent env e.path ≠ none) :
    out.metrics.total =
      out.metrics.newFile + out.metrics.modifiedFile + out.metrics.skipped := by
  obtain rfl := Sync_outcome_eq s env sp0 fuel m0 out hsrc hfetch hrun
  obtain ⟨t1, n1, mo1, s1⟩ := syncCore_counts s env (trimSlashes sp0) m0
  rw [t1, n1, mo1, s1]
  exact walkFold_sum s env (trimSlashes sp0) env.localTree _ hgood (by simp [syncMetrics.init])

/-- C3 counterexample: with one local file matched in the remote map whose
content read fails in checksum mode, the completed run reports
`total = 1` but `newFiles + modifiedFiles + skippedFiles = 0`, refuting the
unconditional invariant. -/
theorem metrics_sum_broken_by_read_error :
    (syncMetricsOf (Sync cfgPlain envReadFail "" 2)).total = 1 ∧
    (syncMetricsOf (Sync cfgPlain envReadFail "" 2)).newFile +
      (syncMetricsOf (Sync cfgPlain envReadFail "" 2)).modifiedFile +
      (syncMetricsOf (Sync cfgPlain envReadFail "" 2)).skipped = 0 := by
  decide

theorem metrics_sum_holds_without_read_errors_witness :
    ∃ out, Sync cfgPlain envTwoFiles "" 2 = some out ∧
      out.metrics.total =
        out.metrics.newFile + out.metrics.modifiedFile + out.metrics.skipped :=
  ⟨_, rfl, metrics_sum_holds_without_read_errors cfgPlain envTwoFiles "" 2 _ _
    rfl rfl rfl (by decide)⟩

/-- C4: for every run that gets past the fetch (source path valid, remote
fetch succeeded), `Sync` returns a non-nil error exactly when the error
counter is positive at the end: any per-item read, upload or delete failure
forces a failure outcome, and a run with a zero error counter returns
nil. -/
theorem sync_error_iff_error_count (s : BCDNSyncer) (env : SyncEnv)
    (sp0 : String) (fuel : Nat) (m0 : ObjMap) (out : SyncOutcome)
    (hsrc : env.sourceOk = true)
    (hfetch : fetchAllObjects env fuel (trimSlashes sp0) = some (Except.ok m0))
    (hrun : Sync s env sp0 fuel = some out) :
    (out.err.isSome = true ↔ 0 < out.metrics.errors) := by
  obtain rfl := Sync_outcome_eq s env sp0 fuel m0 out hsrc hfetch hrun
  exact syncCore_err_iff s env (trimSlashes sp0) m0

theorem sync_error_iff_error_count_witness :
    ∃ out, Sync cfgPlain envReadFail "" 2 = some out ∧
      (out.err.isSome = true ↔ 0 < out.metrics.errors) :=
  ⟨_, rfl, sync_error_iff_error_count cfgPlain envReadFail "" 2 _ _ rfl rfl rfl⟩

/-- C5: if the remote fetch fails, `Sync` aborts with the wrapped fetch
error before any classification: no partial remote map is used (the
outcome's residual map and operation list are empty), no metrics are
recorded, and zero uploads and zero deletes (indeed zero events of any
kind) are attempted. -/
theorem fetch_error_aborts_run (s : BCDNSyncer) (env : SyncEnv)
    (sp0 : String) (fuel : Nat) (msg : String) (out : SyncOutcome)
    (hsrc : env.sourceOk = true)
    (hfetch : fetchAllObjects env fuel (trimSlashes sp0) = some (Except.error msg))
    (hrun : Sync s env sp0 fuel = some out) :
    out.err = some ("failed to fetch remote objects: " ++ msg) ∧
    out.events = [] ∧ out.metrics = syncMetrics.init ∧
    out.operations = [] ∧ out.residual = [] := by
  simp only [Sync, hsrc, hfetch] at hrun
  rw [if_neg (by simp [hsrc])] at hrun
  injection hrun with hrun'
  subst hrun'
  exact ⟨rfl, rfl, rfl, rfl, rfl⟩

theorem fetch_error_aborts_run_witness :
    ∃ out, Sync cfgDel envListFail "" 2 = some out ∧
      (out.err = some ("failed to fetch remote objects: " ++ "failed to list : boom") ∧
       out.events = [] ∧ out.metrics = syncMetrics.init ∧
       out.operations = [] ∧ out.residual = []) :=
  ⟨_, rfl, fetch_error_aborts_run cfgDel envListFail "" 2 "failed to list : boom" _
    rfl rfl rfl⟩

end BunnySync

namespace BunnySync

theorem walkResult_new_file (s : BCDNSyncer) (env : SyncEnv) (sp : String) (m0 : ObjMap)
    (l1 l2 : List LocalEntry) (e : LocalEntry)
    (htree : env.localTree = l1 ++ e :: l2)
    (hacc : e.accessErr = false) (hdir : e.isDir = false)
    (habs : lookupKey m0 (entryRelPath sp e) = none)
    (huniq : ∀ x ∈ l1 ++ l2, entryRelPath sp x ≠ entryRelPath sp e)
    (hread : s.SizeOnly = true ∨ getFileContent env e.path ≠ none) :
    opsFor (walkResult s env sp m0).operations (entryRelPath sp e) = 1 ∧
    1 ≤ (walkResult s env sp m0).metrics.newFile := by
  unfold walkResult
  rw [htree, List.foldl_append, List.foldl_cons]
  have hne1 : ∀ x ∈ l1, entryRelPath sp x ≠ entryRelPath sp e :=
    fun x hx => huniq x (List.mem_append_left _ hx)
  have hne2 : ∀ x ∈ l2, entryRelPath sp x ≠ entryRelPath sp e :=
    fun x hx => huniq x (List.mem_append_right _ hx)
  set st1 := List.foldl (walkStep s env sp)
    { objMap := m0, metrics := syncMetrics.init, operations := [], events := [] } l1 with hst1
  have h1 : lookupKey st1.objMap (entryRelPath sp e) = none :=
    walkFold_lookup_none s env sp l1 _ habs
  obtain ⟨h3, h4⟩ := walkStep_opsFor_new s env sp st1 e hacc hdir rfl h1 hread
  have h2 : opsFor st1.operations (entryRelPath sp e) = 0 := by
    rw [hst1, walkFold_opsFor_ne s env sp l1 _ hne1]
    rfl
  constructor
  · rw [walkFold_opsFor_ne s env sp l2 _ hne2, h3, h2]
  · have h5 := (walkFold_skipped_le s env sp l2 (walkStep s env sp st1 e)).2.1
    omega

theorem walkResult_only_missing (s : BCDNSyncer) (env : SyncEnv) (sp : String)
    (m0 : ObjMap) (l1 l2 : List LocalEntry) (e : LocalEntry) (obj : BCDNObject)
    (htree : env.localTree = l1 ++ e :: l2)
    (hacc : e.accessErr = false) (hdir : e.isDir = false)
    (hom : s.OnlyMissing = true)
    (hin : lookupKey m0 (entryRelPath sp e) = some obj)
    (huniq : ∀ x ∈ l1 ++ l2, entryRelPath sp x ≠ entryRelPath sp e) :
    opsFor (walkResult s env sp m0).operations (entryRelPath sp e) = 0 ∧
    lookupKey (walkResult s env sp m0).objMap (entryRelPath sp e) = none ∧
    1 ≤ (walkResult s env sp m0).metrics.skipped := by
  unfold walkResult
  rw [htree, List.foldl_append, List.foldl_cons]
  have hne1 : ∀ x ∈ l1, entryRelPath sp x ≠ entryRelPath sp e :=
    fun x hx => huniq x (List.mem_append_left _ hx)
  have hne2 : ∀ x ∈ l2, entryRelPath sp x ≠ entryRelPath sp e :=
    fun x hx => huniq x (List.mem_append_right _ hx)
  set st1 := List.foldl (walkStep s env sp)
    { objMap := m0, metrics := syncMetrics.init, operations := [], events := [] } l1 with hst1
  have hl1 : lookupKey st1.objMap (entryRelPath sp e) = some obj := by
    rw [hst1, walkFold_lookup_preserved s env sp l1 _ hne1]
    exact hin
  have hstep := walkStep_only_missing s env sp st1 e hacc hdir hom hl1
  refine ⟨?_, ?_, ?_⟩
  · rw [walkFold_opsFor_ne s env sp l2 _ hne2, hstep]
    have h2 : opsFor st1.operations (entryRelPath sp e) = 0 := by
      rw [hst1, walkFold_opsFor_ne s env sp l1 _ hne1]
      rfl
    simpa using h2
  · refine walkFold_lookup_none s env sp l2 _ ?_
    rw [hstep]
    exact lookupKey_eraseKey_self _ _
  · have h5 := (walkFold_skipped_le s env sp l2 (walkStep s env sp st1 e)).1
    have h6 : 1 ≤ (walkStep s env sp st1 e).metrics.skipped := by
      rw [hstep]
      simp
    exact le_trans h6 h5

/-- C6 (amended): a local file whose relative path is absent from the
remote map is classified new and, unless its content read fails in
checksum mode, exactly one upload operation for that path is queued
(in size-only mode no read is needed, so the upload is always queued).
(The amendment is forced by syncer.go lines 173-182: a read failure while
preparing the upload increments `newFiles` and the error counter but
queues nothing.) -/
theorem new_file_scheduled_exactly_once (s : BCDNSyncer) (env : SyncEnv)
    (sp0 : String) (fuel : Nat) (m0 : ObjMap) (out : SyncOutcome)
    (l1 l2 : List LocalEntry) (e : LocalEntry)
    (hsrc : env.sourceOk = true)
    (hfetch : fetchAllObjects env fuel (trimSlashes sp0) = some (Except.ok m0))
    (hrun : Sync s env sp0 fuel = some out)
    (htree : env.localTree = l1 ++ e :: l2)
    (hacc : e.accessErr = false) (hdir : e.isDir = false)
    (habs : lookupKey m0 (entryRelPath (trimSlashes sp0) e) = none)
    (huniq : ∀ x ∈ l1 ++ l2,
      entryRelPath (trimSlashes sp0) x ≠ entryRelPath (trimSlashes sp0) e)
    (hread : s.SizeOnly = true ∨ getFileContent env e.path ≠ none) :
    opsFor out.operations (entryRelPath (trimSlashes sp0) e) = 1 ∧
    1 ≤ out.metrics.newFile := by
  obtain rfl := Sync_outcome_eq s env sp0 fuel m0 out hsrc hfetch hrun
  obtain ⟨h1, h2⟩ := walkResult_new_file s env (trimSlashes sp0) m0 l1 l2 e
    htree hacc hdir habs huniq hread
  constructor
  · rw [syncCore_operations_eq]
    exact h1
  · rw [(syncCore_counts s env (trimSlashes sp0) m0).2.1]
    exact h2

/-- C6 counterexample: an absent-remotely local file whose content read
fails (checksum mode) is counted as new but no upload operation is queued
for it, refuting "appends exactly one upload operation ... in every
comparison mode". -/
theorem new_file_read_error_schedules_no_upload :
    (syncMetricsOf (Sync cfgPlain envNewReadFail "" 2)).newFile = 1 ∧
    syncOpsOf (Sync cfgPlain envNewReadFail "" 2) = [] := by
  decide

theorem new_file_scheduled_exactly_once_witness :
    ∃ out, Sync cfgPlain envNewFile "" 2 = some out ∧
      (opsFor out.operations (entryRelPath (trimSlashes "") (entEx "/l/a.txt" "a.txt" 2)) = 1 ∧
       1 ≤ out.metrics.newFile) :=
  ⟨_, rfl, new_file_scheduled_exactly_once cfgPlain envNewFile "" 2 _ _
    [] [] (entEx "/l/a.txt" "a.txt" 2) rfl rfl rfl rfl rfl rfl rfl
    (by intro x hx; simp at hx) (Or.inr (by decide))⟩

/-- C7: in only-missing mode, a local file whose relative path exists in
the remote map is classified skipped and its entry removed from the map,
and no upload operation is ever queued for that path, regardless of any
size or checksum difference (the content is not even read). -/
theorem only_missing_never_schedules_existing (s : BCDNSyncer) (env : SyncEnv)
    (sp0 : String) (fuel : Nat) (m0 : ObjMap) (out : SyncOutcome)
    (l1 l2 : List LocalEntry) (e : LocalEntry) (obj : BCDNObject)
    (hsrc : env.sourceOk = true)
    (hfetch : fetchAllObjects env fuel (trimSlashes sp0) = some (Except.ok m0))
    (hrun : Sync s env sp0 fuel = some out)
    (htree : env.localTree = l1 ++ e :: l2)
    (hacc : e.accessErr = false) (hdir : e.isDir = false)
    (hom : s.OnlyMissing = true)
    (hin : lookupKey m0 (entryRelPath (trimSlashes sp0) e) = some obj)
    (huniq : ∀ x ∈ l1 ++ l2,
      entryRelPath (trimSlashes sp0) x ≠ entryRelPath (trimSlashes sp0) e) :
    opsFor out.operations (entryRelPath (trimSlashes sp0) e) = 0 ∧
    lookupKey out.residual (entryRelPath (trimSlashes sp0) e) = none ∧
    1 ≤ out.metrics.skipped := by
  obtain rfl := Sync_outcome_eq s env sp0 fuel m0 out hsrc hfetch hrun
  obtain ⟨h1, h2, h3⟩ := walkResult_only_missing s env (trimSlashes sp0) m0 l1 l2 e obj
    htree hacc hdir hom hin huniq
  refine ⟨?_, ?_, ?_⟩
  · rw [syncCore_operations_eq]
    exact h1
  · rw [syncCore_residual_eq]
    exact h2
  · rw [(syncCore_counts s env (trimSlashes sp0) m0).2.2.2]
    exact h3

theorem only_missing_never_schedules_existing_witness :
    ∃ out, Sync cfgOnlyMissing envReadFail "" 2 = some out ∧
      (opsFor out.operations (entryRelPath (trimSlashes "") (entEx "/l/a.txt" "a.txt" 2)) = 0 ∧
       lookupKey out.residual (entryRelPath (trimSlashes "") (entEx "/l/a.txt" "a.txt" 2)) = none ∧
       1 ≤ out.metrics.skipped) :=
  ⟨_, rfl, only_missing_never_schedules_existing cfgOnlyMissing envReadFail "" 2 _ _
    [] [] (entEx "/l/a.txt" "a.txt" 2) (objEx "a.txt" "aa" 2) rfl rfl rfl rfl rfl rfl
    rfl rfl (by intro x hx; simp at hx)⟩

end BunnySync

namespace BunnySync

/-- C8: the delete phase only ever invokes the delete collaborator on
residual-map entries whose `isDirectory` flag is false: every path that
receives a `Delete` transport call corresponds to a non-directory object
in the residual map. -/
theorem delete_calls_only_nondirectory_candidates (s : BCDNSyncer) (env : SyncEnv)
    (sp0 : String) (fuel : Nat) (m0 : ObjMap) (out : SyncOutcome) (p : String)
    (hsrc : env.sourceOk = true)
    (hfetch : fetchAllObjects env fuel (trimSlashes sp0) = some (Except.ok m0))
    (hrun : Sync s env sp0 fuel = some out)
    (hev : Event.delete p ∈ out.events) :
    ∃ o, (p, o) ∈ out.residual ∧ o.isDirectory = false := by
  obtain rfl := Sync_outcome_eq s env sp0 fuel m0 out hsrc hfetch hrun
  rw [syncCore_residual_eq]
  exact syncCore_delete_event s env (trimSlashes sp0) m0 hev

theorem delete_calls_only_nondirectory_candidates_witness :
    ∃ out, Sync cfgDel envOrphan "" 3 = some out ∧
      ∃ o, ("c.txt", o) ∈ out.residual ∧ o.isDirectory = false :=
  ⟨_, rfl, delete_calls_only_nondirectory_candidates cfgDel envOrphan "" 3 _ _ "c.txt"
    rfl rfl rfl (by decide)⟩

/-- C9 (amended): for every local path that occurs at most once in the
walk sequence, its content is read at most twice per run — at most once by
the walk for the checksum comparison and at most once more by the executor,
which re-reads the content immediately before the upload instead of
reusing the walk's copy (syncer.go lines 281-282 and the comment at line
188, "Store the file path, not the content"). -/
theorem content_read_at_most_twice (s : BCDNSyncer) (env : SyncEnv)
    (sp0 : String) (fuel : Nat) (m0 : ObjMap) (out : SyncOutcome) (p : String)
    (hsrc : env.sourceOk = true)
    (hfetch : fetchAllObjects env fuel (trimSlashes sp0) = some (Except.ok m0))
    (hrun : Sync s env sp0 fuel = some out)
    (huniq : (env.localTree.filter (fun x => decide (x.path = p))).length ≤ 1) :
    readCount out.events p ≤ 2 := by
  obtain rfl := Sync_outcome_eq s env sp0 fuel m0 out hsrc hfetch hrun
  rw [syncCore_readCount]
  have h1 : readCount (walkResult s env (trimSlashes sp0) m0).events p ≤
      (env.localTree.filter (fun x => decide (x.path = p))).length := by
    have h := walkFold_readCount_le s env (trimSlashes sp0) env.localTree
      { objMap := m0, metrics := syncMetrics.init, operations := [], events := [] } p
    simpa [walkResult, readCount] using h
  have h2 : opsForPath (walkResult s env (trimSlashes sp0) m0).operations p ≤
      (env.localTree.filter (fun x => decide (x.path = p))).length := by
    have h := walkFold_opsForPath_le s env (trimSlashes sp0) env.localTree
      { objMap := m0, metrics := syncMetrics.init, operations := [], events := [] } p
    simpa [walkResult, opsForPath] using h
  omega

/-- C9 counterexample: a modified file in checksum mode is read once by the
walk (for the checksum comparison) and read again by the executor right
before the upload — two reads of the same path in one run, refuting
"content is read at most once per file per run ... reused for the upload
rather than re-read". -/
theorem walk_then_executor_reads_twice :
    readCount (syncEvents (Sync cfgPlain envModified "" 2)) "/l/a.txt" = 2 := by
  decide

theorem content_read_at_most_twice_witness :
    ∃ out, Sync cfgPlain envModified "" 2 = some out ∧
      readCount out.events "/l/a.txt" ≤ 2 :=
  ⟨_, rfl, content_read_at_most_twice cfgPlain envModified "" 2 _ _ "/l/a.txt"
    rfl rfl rfl (by decide)⟩

/-- C10: when `Delete` mode is enabled and the upload phase produced no
errors (so the run reaches the delete phase), the `deletedFiles` counter
equals the number of non-directory delete candidates — counting attempted
deletions, including failed and dry-run ones, independent of the delete
oracle — and each failed delete attempt increments the error counter while
`deletedFiles` is never decremented. -/
theorem deleted_count_counts_attempts (s : BCDNSyncer) (env : SyncEnv)
    (sp0 : String) (fuel : Nat) (m0 : ObjMap) (out : SyncOutcome)
    (hsrc : env.sourceOk = true)
    (hfetch : fetchAllObjects env fuel (trimSlashes sp0) = some (Except.ok m0))
    (hrun : Sync s env sp0 fuel = some out)
    (hdel : s.Delete = true)
    (hup : (uploadPhase s env (walkResult s env (trimSlashes sp0) m0)).errs = 0) :
    out.metrics.deletedFile =
      (deleteCandidates (walkResult s env (trimSlashes sp0) m0).objMap).length ∧
    out.metrics.errors =
      (uploadPhase s env (walkResult s env (trimSlashes sp0) m0)).metrics.errors +
      failedDeletes s env (deleteCandidates (walkResult s env (trimSlashes sp0) m0).objMap) := by
  obtain rfl := Sync_outcome_eq s env sp0 fuel m0 out hsrc hfetch hrun
  exact syncCore_deleted_count s env (trimSlashes sp0) m0 hdel hup

theorem deleted_count_counts_attempts_witness :
    ∃ out, Sync cfgDel envOrphan "" 3 = some out ∧
      out.metrics.deletedFile = 1 ∧ out.metrics.errors = 1 := by
  refine ⟨_, rfl, ?_, ?_⟩
  · rw [(deleted_count_counts_attempts cfgDel envOrphan "" 3 _ _ rfl rfl rfl rfl rfl).1]
    decide
  · rw [(deleted_count_counts_attempts cfgDel envOrphan "" 3 _ _ rfl rfl rfl rfl rfl).2]
    decide

end BunnySync
